import Mathlib

/-!
Formal model of the tvnews-ingest-pipeline face detection and identification
components, embedded shallowly from the Python sources
src/components/detect_faces_and_compute_embeddings.py and
src/components/identify_faces_with_aws.py.  Floating point values are
modelled by rationals, numpy arrays by their dimensions, and the external
capabilities (video decoding, the face detector, the face embedder, the
recognition service) by explicit function parameters as fixed by the
capability contracts of the specification.
-/

/-- Normalized bounding box as produced by the face detector: fields x1, y1,
x2, y2 in the unit interval, modelling the Python dict with those keys. -/
structure BboxQ where
  x1 : ℚ
  y1 : ℚ
  x2 : ℚ
  y2 : ℚ
deriving DecidableEq

/-- DILATE_AMOUNT constant of detect_faces_and_compute_embeddings.py. -/
def DILATE_AMOUNT : ℚ := 21 / 20

/-- Dilation of a single box, the body of the comprehension in dilate_bboxes:
low edges scaled by (2 - DILATE_AMOUNT), high edges by DILATE_AMOUNT. -/
def dilate1 (bbox : BboxQ) : BboxQ :=
  { x1 := bbox.x1 * (2 - DILATE_AMOUNT)
    x2 := bbox.x2 * DILATE_AMOUNT
    y1 := bbox.y1 * (2 - DILATE_AMOUNT)
    y2 := bbox.y2 * DILATE_AMOUNT }

/-- dilate_bboxes of detect_faces_and_compute_embeddings.py: dilates every
detected box. -/
def dilate_bboxes (detected_faces : List BboxQ) : List BboxQ :=
  detected_faces.map dilate1

/-- Python int() conversion of a float: truncation toward zero. -/
def pyTrunc (q : ℚ) : ℤ :=
  if q < 0 then -(Int.floor (-q)) else Int.floor q

/-- Resolution of a (possibly negative) Python slice endpoint against an axis
of length n, following numpy semantics: negative indices count from the end
and the result is clamped into the interval from 0 to n. -/
def npIdx (n : ℕ) (i : ℤ) : ℕ :=
  if i < 0 then ((n : ℤ) + i).toNat else min i.toNat n

/-- Number of elements selected by the slice i:j on an axis of length n. -/
def npSliceLen (n : ℕ) (i j : ℤ) : ℕ :=
  npIdx n j - npIdx n i

/-- Low y coordinate computed by crop_bbox: max(bbox y1 - expand, 0). -/
def cropLowY (bbox : BboxQ) (expand : ℚ) : ℚ := max (bbox.y1 - expand) 0

/-- High y coordinate computed by crop_bbox: min(bbox y2 + expand, 1). -/
def cropHighY (bbox : BboxQ) (expand : ℚ) : ℚ := min (bbox.y2 + expand) 1

/-- Low x coordinate computed by crop_bbox: max(bbox x1 - expand, 0). -/
def cropLowX (bbox : BboxQ) (expand : ℚ) : ℚ := max (bbox.x1 - expand) 0

/-- High x coordinate computed by crop_bbox: min(bbox x2 + expand, 1). -/
def cropHighX (bbox : BboxQ) (expand : ℚ) : ℚ := min (bbox.x2 + expand) 1

/-- Shape (rows, cols) of the pixel array returned by crop_bbox of
detect_faces_and_compute_embeddings.py on an image of h rows and w columns.
The image content is irrelevant to the shape, so only dimensions are
modelled; the slice arithmetic follows the source line by line, including
the largest-centered-square adjustment taken when square is true. -/
def crop_bbox_shape (h w : ℕ) (bbox : BboxQ) (expand : ℚ) (square : Bool) :
    ℕ × ℕ :=
  let y1 := cropLowY bbox expand
  let y2 := cropHighY bbox expand
  let x1 := cropLowX bbox expand
  let x2 := cropHighX bbox expand
  let rows := npSliceLen h (pyTrunc (y1 * h)) (pyTrunc (y2 * h))
  let cols := npSliceLen w (pyTrunc (x1 * w)) (pyTrunc (x2 * w))
  if square then
    if cols < rows then
      let target_height := cols
      let diff := target_height / 2
      let center := rows / 2
      (npSliceLen rows ((center : ℤ) - diff)
        ((center : ℤ) + ((target_height : ℤ) - diff)), cols)
    else
      let target_width := rows
      let diff := target_width / 2
      let center := cols / 2
      (rows, npSliceLen cols ((center : ℤ) - diff)
        ((center : ℤ) + ((target_width : ℤ) - diff)))
  else (rows, cols)

/-- An embedding vector: a list of floats, modelled as rationals. -/
abbrev EmbedVec := List ℚ

/-- Entry stored per face by handle_face_bboxes_results: the dict with keys
frame_num and bbox, where frame_num is the ceiling of frame index times
stride. -/
structure FaceAtFrame where
  frame_num : ℤ
  bbox : BboxQ
deriving DecidableEq

/-- handle_face_bboxes_results of detect_faces_and_compute_embeddings.py.
The fold runs over the per-frame face lists paired with their frame index;
each frame appends pairs (face_id, entry) where face_id continues from the
current length of the accumulated result, exactly as
enumerate(faces, len(result)) does. -/
def handle_face_bboxes_results (detected_faces : List (List BboxQ))
    (stride : ℚ) : List (ℕ × FaceAtFrame) :=
  (detected_faces.enumFrom 0).foldl
    (fun result p =>
      result ++ (p.2.enumFrom result.length).map
        (fun q => (q.1, FaceAtFrame.mk (Int.ceil ((p.1 : ℚ) * stride)) q.2)))
    []

/-- handle_face_embeddings_results of detect_faces_and_compute_embeddings.py.
The float conversion applied to each embedding component is the identity in
the rational model. -/
def handle_face_embeddings_results (face_embeddings : List (List EmbedVec)) :
    List (ℕ × EmbedVec) :=
  face_embeddings.foldl
    (fun result embeddings =>
      result ++ (embeddings.enumFrom result.length).map
        (fun q => (q.1, q.2.map (fun x => x))))
    []

/-- get_face_crops_results of detect_faces_and_compute_embeddings.py, generic
in the type of the crop images it pairs with face ids. -/
def get_face_crops_results {γ : Type} (face_crops : List (List γ)) :
    List (ℕ × γ) :=
  face_crops.foldl
    (fun result crops => result ++ crops.enumFrom result.length) []

/-- BATCH_SIZE constant of detect_faces_and_compute_embeddings.py. -/
def BATCH_SIZE : ℕ := 16

/-- Range of time slots owned by thread i out of N for a video with n_sec
slots, returned as the pair (start_sec, end_sec) computed in thread_task:
chunk_size_sec is the floor of n_sec / N, start_sec is chunk_size_sec times
the thread id, and the last thread additionally takes the remainder. -/
def threadRange (nSec N i : ℕ) : ℕ × ℕ :=
  let chunk_size_sec := nSec / N
  let start_sec := chunk_size_sec * i
  let chunk_plus := if i = N - 1 then chunk_size_sec + nSec % N else chunk_size_sec
  (start_sec, start_sec + chunk_plus)

/-- Number of batch iterations of the loop for sec in range(start, end,
BATCH_SIZE) in thread_task. -/
def nBatches (s e : ℕ) : ℕ := (e - s + (BATCH_SIZE - 1)) / BATCH_SIZE

/-- Per-thread output stream in thread_task: the outer loop walks batch
starts spaced BATCH_SIZE apart, the inner loop visits the slots from sec to
min(sec + BATCH_SIZE, end_sec), and the per-slot results (given by f, which
stands for the per-frame work of decode, detect, dilate, crop and embed) are
appended in order. -/
def threadOut {α : Type} (f : ℕ → α) (s e : ℕ) : List α :=
  ((List.range' s (nBatches s e) BATCH_SIZE).map
    (fun sec => (List.range' sec (min (sec + BATCH_SIZE) e - sec)).map f)).flatten

/-- Merged output in process_videos: the per-thread lists are concatenated
in thread index order (all_bboxes += thread_bboxes[i] for i in range(N)). -/
def mergedOut {α : Type} (f : ℕ → α) (nSec N : ℕ) : List α :=
  ((List.range N).map
    (fun i => threadOut f (threadRange nSec N i).1 (threadRange nSec N i).2)).flatten

/-- Video metadata as collected by get_video_metadata: name, fps (a float,
modelled rational), frame count, width and height. -/
structure VideoMeta where
  name : String
  fps : ℚ
  frames : ℕ
  width : ℕ
  height : ℕ
deriving DecidableEq

/-- The expected per-video slot total of process_videos:
math.floor(frames / fps / interval), kept as an integer since a Python
float floor is compared against list lengths. -/
def targetSec (meta : VideoMeta) (interval : ℕ) : ℤ :=
  Int.floor ((meta.frames : ℚ) / meta.fps / interval)

/-- Input of the per-video merge step of process_videos: metadata plus the
per-thread per-frame outputs produced by the join barrier, generic in the
crop image type. -/
structure VideoInput (γ : Type) where
  meta : VideoMeta
  thread_bboxes : List (List (List BboxQ))
  thread_crops : List (List (List γ))
  thread_embeddings : List (List (List EmbedVec))

/-- The four artifacts process_videos persists for one video: metadata,
bounding boxes, embeddings and crops. -/
structure Persisted (γ : Type) where
  metadata : VideoMeta
  bboxes : List (ℕ × FaceAtFrame)
  embeddings : List (ℕ × EmbedVec)
  crops : List (ℕ × γ)

/-- Body of the per-video loop of process_videos after the threads are
joined: the thread lists are concatenated in thread order, the three merged
lengths are compared against target_sec, and on any mismatch the video is
skipped (continue) with nothing persisted; otherwise metadata, bboxes,
embeddings and crops are all saved. -/
def process_one_video {γ : Type} (interval : ℕ) (v : VideoInput γ) :
    Option (Persisted γ) :=
  let all_bboxes := v.thread_bboxes.flatten
  let all_crops := v.thread_crops.flatten
  let all_embeddings := v.thread_embeddings.flatten
  let target_sec := targetSec v.meta interval
  if (all_bboxes.length : ℤ) ≠ target_sec ∨ (all_crops.length : ℤ) ≠ target_sec
      ∨ (all_embeddings.length : ℤ) ≠ target_sec then
    none
  else
    some
      { metadata := v.meta
        bboxes := handle_face_bboxes_results all_bboxes (v.meta.fps * interval)
        embeddings := handle_face_embeddings_results all_embeddings
        crops := get_face_crops_results all_crops }

/-- The sequence of per-video artifact sets persisted by process_videos over
a list of videos, in processing order; skipped videos contribute nothing and
processing continues with the next video. -/
def process_videos_model {γ : Type} (interval : ℕ) (vids : List (VideoInput γ)) :
    List (Persisted γ) :=
  vids.filterMap (process_one_video interval)

/-- Bounding box of the recognition service response, with normalized Left,
Top, Width, Height fields. -/
structure AwsBox where
  left : ℚ
  top : ℚ
  width : ℚ
  height : ℚ
deriving DecidableEq

/-- One entry of the CelebrityFaces list: name, match confidence, box. -/
structure CelebFace where
  name : String
  confidence : ℚ
  box : AwsBox
deriving DecidableEq

/-- The recognition service response: recognized and unrecognized faces. -/
structure AwsResponse where
  celebrityFaces : List CelebFace
  unrecognizedFaces : List AwsBox
deriving DecidableEq

/-- Value stored in the labels dict of process_labeling_results: the tuple
(name, confidence, l1 distance, grid x, grid y). -/
structure FaceLabel where
  name : String
  confidence : ℚ
  l1_dist : ℚ
  grid_x : ℤ
  grid_y : ℤ
deriving DecidableEq

/-- State of the labels dict: an insertion-ordered association list from
face_id to FaceLabel, as a Python dict with those keys. -/
abbrev Labels := List (ℕ × FaceLabel)

/-- Dict lookup: value at key k, or none. -/
def lookupL : Labels → ℕ → Option FaceLabel
  | [], _ => none
  | p :: rest, k => if p.1 = k then some p.2 else lookupL rest k

/-- Dict assignment labels[k] = v: updates the value in place if the key is
present, otherwise appends the new binding, preserving insertion order. -/
def setL : Labels → ℕ → FaceLabel → Labels
  | [], k, v => [(k, v)]
  | p :: rest, k, v => if p.1 = k then (k, v) :: rest else p :: setL rest k v

/-- Dict deletion del labels[k]: removes the binding of key k. -/
def delL : Labels → ℕ → Labels
  | [], _ => []
  | p :: rest, k => if p.1 = k then rest else p :: delL rest k

/-- Python float modulo a % b: a - b * floor(a / b), in the interval from 0
to b for positive b. -/
def qmod (a b : ℚ) : ℚ := a - b * (Int.floor (a / b) : ℤ)

/-- Montage width in pixels in process_labeling_results:
n_cols * block_size. -/
def montageWidth (n_cols block_size : ℕ) : ℕ := n_cols * block_size

/-- Montage height in pixels in process_labeling_results:
math.ceil(len(img_ids) / n_cols) * block_size. -/
def montageHeight (n_cols block_size n_imgs : ℕ) : ℕ :=
  ((n_imgs + n_cols - 1) / n_cols) * block_size

/-- Horizontal center of a response box in montage pixel space:
(x0 + x1) / 2 * width. -/
def centerX (b : AwsBox) (width : ℕ) : ℚ :=
  (b.left + (b.left + b.width)) / 2 * width

/-- Vertical center of a response box in montage pixel space:
(y0 + y1) / 2 * height. -/
def centerY (b : AwsBox) (height : ℕ) : ℚ :=
  (b.top + (b.top + b.height)) / 2 * height

/-- Axis residual of process_labeling_results:
abs(center % block_size - half_block_size), where half_block_size is the
Python int() of block_size / 2, a floor for the nonnegative block size. -/
def residualOf (center : ℚ) (block_size : ℕ) : ℚ :=
  |qmod center block_size - ((block_size / 2 : ℕ) : ℚ)|

/-- Grid coordinate of a center: math.floor(center / block_size). -/
def gridOf (center : ℚ) (block_size : ℕ) : ℤ :=
  Int.floor (center / (block_size : ℚ))

/-- Horizontal center of a box in the montage of process_labeling_results:
the montage width is n_cols * block_size. -/
def recCenterX (n_cols block_size : ℕ) (b : AwsBox) : ℚ :=
  centerX b (montageWidth n_cols block_size)

/-- Vertical center of a box in the montage of process_labeling_results:
the montage height is ceil(n_imgs / n_cols) * block_size. -/
def recCenterY (n_cols block_size n_imgs : ℕ) (b : AwsBox) : ℚ :=
  centerY b (montageHeight n_cols block_size n_imgs)

/-- Row-major grid cell index of a box: grid_y * n_cols + grid_x. -/
def cellIdx (n_cols block_size n_imgs : ℕ) (b : AwsBox) : ℤ :=
  gridOf (recCenterY n_cols block_size n_imgs b) block_size * n_cols
    + gridOf (recCenterX n_cols block_size b) block_size

/-- Processing of one recognized face of the CelebrityFaces list in
process_labeling_results: the box center is reverse-mapped through the
grid; the candidate is accepted only if both residuals are under the Python
int() of block_size / 6, the grid cell index is formed row-major, and a
candidate replaces an existing one for the same face_id only when its l1
distance is strictly smaller. -/
def recStep (n_cols block_size : ℕ) (img_ids : List ℕ) (labels : Labels)
    (face : CelebFace) : Labels :=
  let center_x := recCenterX n_cols block_size face.box
  let center_y := recCenterY n_cols block_size img_ids.length face.box
  let residual_x := residualOf center_x block_size
  let residual_y := residualOf center_y block_size
  if residual_x < ((block_size / 6 : ℕ) : ℚ) ∧
      residual_y < ((block_size / 6 : ℕ) : ℚ) then
    let grid_x := gridOf center_x block_size
    let grid_y := gridOf center_y block_size
    let idx := grid_y * n_cols + grid_x
    if 0 ≤ idx ∧ idx < (img_ids.length : ℤ) then
      let face_id := img_ids.getD idx.toNat 0
      let l1_dist := residual_x + residual_y
      let face_label := FaceLabel.mk face.name face.confidence l1_dist grid_x grid_y
      match lookupL labels face_id with
      | some old => if old.l1_dist > l1_dist then setL labels face_id face_label else labels
      | none => setL labels face_id face_label
    else labels
  else labels

/-- Processing of one unrecognized face of the UnrecognizedFaces list in
process_labeling_results: same center and residual computation, acceptance
band widened to the Python int() of block_size / 2, and a currently held
candidate for the mapped face_id is deleted when its stored l1 distance is
strictly larger than that of the unrecognized detection. -/
def unrecStep (n_cols block_size : ℕ) (img_ids : List ℕ) (labels : Labels)
    (box : AwsBox) : Labels :=
  let center_x := recCenterX n_cols block_size box
  let center_y := recCenterY n_cols block_size img_ids.length box
  let residual_x := residualOf center_x block_size
  let residual_y := residualOf center_y block_size
  if residual_x < ((block_size / 2 : ℕ) : ℚ) ∧
      residual_y < ((block_size / 2 : ℕ) : ℚ) then
    let grid_x := gridOf center_x block_size
    let grid_y := gridOf center_y block_size
    let idx := grid_y * n_cols + grid_x
    if 0 ≤ idx ∧ idx < (img_ids.length : ℤ) then
      let face_id := img_ids.getD idx.toNat 0
      let l1_dist := residual_x + residual_y
      match lookupL labels face_id with
      | some old => if old.l1_dist > l1_dist then delL labels face_id else labels
      | none => labels
    else labels
  else labels

/-- Final state of the labels dict of process_labeling_results: the
recognized faces folded from the empty dict, then the unrecognized faces. -/
def finalLabels (n_cols block_size : ℕ) (img_ids : List ℕ)
    (aws_response : AwsResponse) : Labels :=
  aws_response.unrecognizedFaces.foldl (unrecStep n_cols block_size img_ids)
    (aws_response.celebrityFaces.foldl (recStep n_cols block_size img_ids) [])

/-- process_labeling_results of identify_faces_with_aws.py without the
drawing side channel: fold the recognized faces, then the unrecognized
faces, then emit (face_id, name, confidence) triples for the surviving
candidates. -/
def process_labeling_results (n_cols block_size : ℕ) (img_ids : List ℕ)
    (aws_response : AwsResponse) : List (ℕ × String × ℚ) :=
  (finalLabels n_cols block_size img_ids aws_response).map
    (fun p => (p.1, p.2.name, p.2.confidence))

/-- Size cap of the recognition service: 5 * 1024 * 1024 bytes. -/
def SIZE_CAP : ℕ := 5 * 1024 * 1024

/-- Outcome of search_aws: the assertion failure for an oversized payload
(raised before any attempt), a response obtained on some attempt together
with the backoff delays slept before it, or exhaustion of all ten attempts
with the full delay schedule followed by the fatal exception. -/
inductive SearchResult where
  | tooLarge (size : ℕ)
  | ok (resp : AwsResponse) (delays : List ℕ)
  | exhausted (delays : List ℕ)
deriving DecidableEq

/-- The retry loop of search_aws: n attempts remain, i is the current
attempt index, delays accumulates the seconds slept (2 to the power of the
attempt index after each failed attempt).  The external call is modelled by
an attempt-indexed oracle returning none on a transient failure. -/
def searchLoop (call : ℕ → Option AwsResponse) : ℕ → ℕ → List ℕ → SearchResult
  | 0, _, delays => SearchResult.exhausted delays.reverse
  | n + 1, i, delays =>
    match call i with
    | some resp => SearchResult.ok resp delays.reverse
    | none => searchLoop call n (i + 1) (2 ^ i :: delays)

/-- search_aws of identify_faces_with_aws.py: the size assertion fires for
payloads over the cap before any attempt; otherwise up to ten attempts are
made with exponential backoff. -/
def search_aws (call : ℕ → Option AwsResponse) (size : ℕ) : SearchResult :=
  if SIZE_CAP < size then SearchResult.tooLarge size
  else searchLoop call 10 0 []

/-- Montage geometry returned by create_montage_bytes: column count and
block dimension in pixels. -/
structure MontageMeta where
  cols : ℕ
  block_dim : ℕ

/-- submit_images_for_labeling of identify_faces_with_aws.py.  Crop files
are modelled by their integer face ids (get_base_name of the file name);
create_montage_bytes is modelled by two oracles giving the encoded byte
size and the geometry of the montage built from a file sequence, and the
recognition call by a per-montage attempt-indexed oracle.  When the whole
montage reaches the size cap the file sequence is split once into two
contiguous halves, each submitted independently, and the label lists are
concatenated; service failures propagate as errors. -/
def submit_images_for_labeling (msize : List ℕ → ℕ)
    (mmeta : List ℕ → MontageMeta)
    (recognize : List ℕ → ℕ → Option AwsResponse)
    (img_files : List ℕ) : Except String (List (ℕ × String × ℚ)) :=
  if SIZE_CAP ≤ msize img_files then
    let files1 := img_files.take (img_files.length / 2)
    let files2 := img_files.drop (img_files.length / 2)
    match search_aws (recognize files1) (msize files1) with
    | SearchResult.tooLarge _ => Except.error "File too large"
    | SearchResult.exhausted _ => Except.error "Too many timeouts"
    | SearchResult.ok res1 _ =>
      match search_aws (recognize files2) (msize files2) with
      | SearchResult.tooLarge _ => Except.error "File too large"
      | SearchResult.exhausted _ => Except.error "Too many timeouts"
      | SearchResult.ok res2 _ =>
        Except.ok
          (process_labeling_results (mmeta files1).cols (mmeta files1).block_dim files1 res1
            ++ process_labeling_results (mmeta files2).cols (mmeta files2).block_dim files2 res2)
  else
    match search_aws (recognize img_files) (msize img_files) with
    | SearchResult.tooLarge _ => Except.error "File too large"
    | SearchResult.exhausted _ => Except.error "Too many timeouts"
    | SearchResult.ok res _ =>
      Except.ok
        (process_labeling_results (mmeta img_files).cols (mmeta img_files).block_dim img_files res)

/-- Capability boundary of one worker thread: decoding (under the premise
that every frame read succeeds), the face detector of the §6 contract
(per-image deterministic output in batch order, so batch composition is
transparent), the face embedder (one vector per crop, order preserved),
and the two crop operations, standing for crop_bbox on the frame pixels
with no expansion and with expand 0.1 and square adjustment. -/
structure DetectOracles (Frame Crop : Type) where
  decode : ℕ → Frame
  face_detect : Frame → List BboxQ
  embed : Crop → EmbedVec
  crop_for_embed : Frame → BboxQ → Crop
  crop_for_save : Frame → BboxQ → Crop

/-- Decoded frame of slot i in thread_task: the source frame number is
math.ceil(i * fps * interval). -/
def slotFrame {F C : Type} (o : DetectOracles F C) (fps : ℚ) (interval i : ℕ) : F :=
  o.decode (Int.toNat (Int.ceil ((i : ℚ) * fps * interval)))

/-- Detected faces of slot i (the per-frame entry of detected_faces). -/
def slotDetected {F C : Type} (o : DetectOracles F C) (fps : ℚ) (interval i : ℕ) :
    List BboxQ :=
  o.face_detect (slotFrame o fps interval i)

/-- Dilated boxes of slot i: dilate_bboxes(x) if x else []. -/
def slotDilated {F C : Type} (o : DetectOracles F C) (fps : ℚ) (interval i : ℕ) :
    List BboxQ :=
  let x := slotDetected o fps interval i
  if x.isEmpty then [] else dilate_bboxes x

/-- Tight crops of slot i used as embedding input. -/
def slotEmbedCrops {F C : Type} (o : DetectOracles F C) (fps : ℚ) (interval i : ℕ) :
    List C :=
  let x := slotDilated o fps interval i
  if x.isEmpty then [] else x.map (o.crop_for_embed (slotFrame o fps interval i))

/-- Embeddings of slot i: face_embedder.embed(c) if c else [], the embedder
applied per crop in order by its capability contract. -/
def slotEmbeddings {F C : Type} (o : DetectOracles F C) (fps : ℚ) (interval i : ℕ) :
    List EmbedVec :=
  let c := slotEmbedCrops o fps interval i
  if c.isEmpty then [] else c.map o.embed

/-- Square crops of slot i that get persisted. -/
def slotSaveCrops {F C : Type} (o : DetectOracles F C) (fps : ℚ) (interval i : ℕ) :
    List C :=
  let x := slotDilated o fps interval i
  if x.isEmpty then [] else x.map (o.crop_for_save (slotFrame o fps interval i))

lemma flatten_range_ranges (q k : ℕ) :
    ((List.range k).map (fun i => List.range' (q * i) q)).flatten
      = List.range' 0 (q * k) := by
  induction k with
  | zero => simp
  | succ m ih =>
    rw [List.range_succ, List.map_append, List.flatten_append, ih]
    simp only [List.map_cons, List.map_nil, List.flatten_cons, List.flatten_nil,
      List.append_nil]
    have h := List.range'_append_1 0 (q * m) q
    simp only [Nat.zero_add] at h
    rw [h]
    have h2 : q + q * m = q * (m + 1) := by ring
    rw [h2]

lemma mergedSlots (nSec N : ℕ) (hN : 1 ≤ N) :
    ((List.range N).map (fun i => List.range' (threadRange nSec N i).1
      ((threadRange nSec N i).2 - (threadRange nSec N i).1))).flatten
      = List.range nSec := by
  obtain ⟨M, rfl⟩ : ∃ M, N = M + 1 := ⟨N - 1, by omega⟩
  rw [List.range_succ, List.map_append, List.flatten_append]
  have h1 : ∀ i ∈ List.range M,
      List.range' (threadRange nSec (M + 1) i).1
        ((threadRange nSec (M + 1) i).2 - (threadRange nSec (M + 1) i).1)
      = List.range' (nSec / (M + 1) * i) (nSec / (M + 1)) := by
    intro i hi
    simp only [List.mem_range] at hi
    simp only [threadRange]
    rw [if_neg (by omega)]
    congr 1
    exact Nat.add_sub_cancel_left _ _
  rw [List.map_congr_left h1, flatten_range_ranges]
  simp only [List.map_cons, List.map_nil, List.flatten_cons, List.flatten_nil,
    List.append_nil, threadRange]
  rw [if_pos (by omega)]
  rw [Nat.add_sub_cancel_left]
  have h := List.range'_append_1 0 (nSec / (M + 1) * M) (nSec / (M + 1) + nSec % (M + 1))
  simp only [Nat.zero_add] at h
  rw [h, List.range_eq_range']
  have hdm := Nat.div_add_mod nSec (M + 1)
  have h3 : nSec / (M + 1) + nSec % (M + 1) + nSec / (M + 1) * M
      = (M + 1) * (nSec / (M + 1)) + nSec % (M + 1) := by ring
  rw [h3, hdm]

lemma threadOut_eq {α : Type} (f : ℕ → α) (s e : ℕ) :
    threadOut f s e = (List.range' s (e - s)).map f := by
  generalize h : nBatches s e = n
  induction n generalizing s with
  | zero =>
    have he : e - s = 0 := by
      have h2 := h
      simp only [nBatches, BATCH_SIZE] at h2
      omega
    simp [threadOut, h, he]
  | succ m ih =>
    have hlt : s < e := by
      simp only [nBatches, BATCH_SIZE] at h
      omega
    have hm : nBatches (s + BATCH_SIZE) e = m := by
      simp only [nBatches, BATCH_SIZE] at h ⊢
      omega
    simp only [threadOut, h, List.range'_succ, List.map_cons, List.flatten_cons]
    have htail := ih (s + BATCH_SIZE) hm
    simp only [threadOut, hm] at htail
    rw [htail]
    rcases le_or_lt e (s + BATCH_SIZE) with hc | hc
    · have h1 : min (s + BATCH_SIZE) e = e := by omega
      have h2 : e - (s + BATCH_SIZE) = 0 := by omega
      simp [h1, h2]
    · have h1 : min (s + BATCH_SIZE) e = s + BATCH_SIZE := by omega
      rw [h1, ← List.map_append]
      have h2 : s + BATCH_SIZE - s = BATCH_SIZE := by omega
      rw [h2]
      have h3 := List.range'_append_1 s BATCH_SIZE (e - (s + BATCH_SIZE))
      rw [h3]
      have h4 : e - (s + BATCH_SIZE) + BATCH_SIZE = e - s := by
        simp only [BATCH_SIZE] at hc ⊢
        omega
      rw [h4]

lemma mergedOut_eq {α : Type} (f : ℕ → α) (nSec N : ℕ) (hN : 1 ≤ N) :
    mergedOut f nSec N = (List.range nSec).map f := by
  simp only [mergedOut, threadOut_eq]
  have h : (List.range N).map
      (fun i => (List.range' (threadRange nSec N i).1
        ((threadRange nSec N i).2 - (threadRange nSec N i).1)).map f)
      = List.map (List.map f) ((List.range N).map
        (fun i => List.range' (threadRange nSec N i).1
          ((threadRange nSec N i).2 - (threadRange nSec N i).1))) := by
    rw [List.map_map]
    rfl
  rw [h, ← List.map_flatten, mergedSlots nSec N hN]

/-- C4: for every slot count and worker count N of at least one, the
time-sampling partition of thread_task gives worker i the contiguous range
starting at floor(n_slots / N) * i of size floor(n_slots / N), except the
last worker whose range also takes the remainder; the ranges are pairwise
disjoint and time-ordered, and their concatenation in worker order is
exactly the slot sequence 0, 1, ..., n_slots - 1. -/
theorem C4_time_partition (nSec N : ℕ) (hN : 1 ≤ N) :
    (∀ i, i < N → (threadRange nSec N i).1 = nSec / N * i) ∧
    (∀ i, i + 1 < N →
      (threadRange nSec N i).2 - (threadRange nSec N i).1 = nSec / N) ∧
    ((threadRange nSec N (N - 1)).2 - (threadRange nSec N (N - 1)).1
      = nSec / N + nSec % N) ∧
    (∀ i j, i < j → j < N →
      (threadRange nSec N i).2 ≤ (threadRange nSec N j).1) ∧
    (((List.range N).map (fun i => List.range' (threadRange nSec N i).1
        ((threadRange nSec N i).2 - (threadRange nSec N i).1))).flatten
      = List.range nSec) := by
  refine ⟨?_, ?_, ?_, ?_, mergedSlots nSec N hN⟩
  · intro i _
    simp [threadRange]
  · intro i hi
    simp only [threadRange]
    rw [if_neg (by omega)]
    exact Nat.add_sub_cancel_left _ _
  · simp only [threadRange, if_true, eq_self_iff_true]
    exact Nat.add_sub_cancel_left _ _
  · intro i j hij hj
    simp only [threadRange]
    rw [if_neg (by omega)]
    have h : nSec / N * i + nSec / N = nSec / N * (i + 1) := by ring
    calc nSec / N * i + nSec / N = nSec / N * (i + 1) := h
      _ ≤ nSec / N * j := Nat.mul_le_mul_left _ (by omega)

theorem C4_time_partition_witness :
    (1 ≤ 4) ∧ threadRange 12 4 0 = (0, 3) ∧ threadRange 12 4 1 = (3, 6) ∧
      threadRange 12 4 2 = (6, 9) ∧ threadRange 12 4 3 = (9, 12) ∧
      ((List.range 4).map (fun i => List.range' (threadRange 12 4 i).1
        ((threadRange 12 4 i).2 - (threadRange 12 4 i).1))).flatten
        = List.range 12 :=
  ⟨by decide, by decide, by decide, by decide, by decide,
    (C4_time_partition 12 4 (by decide)).2.2.2.2⟩

/-- C2: for every video whose frames all decode (so every slot yields its
per-frame result) and every worker count N of at least one, the merged
per-frame sequences of detections, square crops and embeddings produced by
joining the N workers in thread order are identical to the single-worker
sequences, and consequently the flattened face_id keyed bbox, embedding and
crop outputs are identical as well, independent of scheduling, because the
merge is in partition (time) order. -/
theorem C2_worker_count_equivalence {F C : Type} (o : DetectOracles F C)
    (fps : ℚ) (interval nSec N : ℕ) (hN : 1 ≤ N) :
    mergedOut (slotDetected o fps interval) nSec N
      = mergedOut (slotDetected o fps interval) nSec 1 ∧
    mergedOut (slotSaveCrops o fps interval) nSec N
      = mergedOut (slotSaveCrops o fps interval) nSec 1 ∧
    mergedOut (slotEmbeddings o fps interval) nSec N
      = mergedOut (slotEmbeddings o fps interval) nSec 1 ∧
    handle_face_bboxes_results (mergedOut (slotDetected o fps interval) nSec N)
        (fps * interval)
      = handle_face_bboxes_results (mergedOut (slotDetected o fps interval) nSec 1)
        (fps * interval) ∧
    handle_face_embeddings_results (mergedOut (slotEmbeddings o fps interval) nSec N)
      = handle_face_embeddings_results (mergedOut (slotEmbeddings o fps interval) nSec 1) ∧
    get_face_crops_results (mergedOut (slotSaveCrops o fps interval) nSec N)
      = get_face_crops_results (mergedOut (slotSaveCrops o fps interval) nSec 1) := by
  have h1 := mergedOut_eq (slotDetected o fps interval) nSec N hN
  have h2 := mergedOut_eq (slotSaveCrops o fps interval) nSec N hN
  have h3 := mergedOut_eq (slotEmbeddings o fps interval) nSec N hN
  have g1 := mergedOut_eq (slotDetected o fps interval) nSec 1 (le_refl 1)
  have g2 := mergedOut_eq (slotSaveCrops o fps interval) nSec 1 (le_refl 1)
  have g3 := mergedOut_eq (slotEmbeddings o fps interval) nSec 1 (le_refl 1)
  refine ⟨h1.trans g1.symm, h2.trans g2.symm, h3.trans g3.symm, ?_, ?_, ?_⟩
  · rw [h1, g1]
  · rw [h3, g3]
  · rw [h2, g2]

/-- Concrete capability instantiation used to witness theorems about the
worker pipeline. -/
def sampleOracles : DetectOracles ℕ ℕ :=
  { decode := fun n => n
    face_detect := fun _ => [⟨0, 0, 1, 1⟩]
    embed := fun _ => [1]
    crop_for_embed := fun _ _ => 7
    crop_for_save := fun _ _ => 7 }

theorem C2_worker_count_equivalence_witness :
    (1 ≤ 8) ∧
      (mergedOut (slotDetected sampleOracles 30 10) 12 8
          = mergedOut (slotDetected sampleOracles 30 10) 12 1 ∧
        mergedOut (slotSaveCrops sampleOracles 30 10) 12 8
          = mergedOut (slotSaveCrops sampleOracles 30 10) 12 1 ∧
        mergedOut (slotEmbeddings sampleOracles 30 10) 12 8
          = mergedOut (slotEmbeddings sampleOracles 30 10) 12 1 ∧
        handle_face_bboxes_results (mergedOut (slotDetected sampleOracles 30 10) 12 8) (30 * 10)
          = handle_face_bboxes_results (mergedOut (slotDetected sampleOracles 30 10) 12 1) (30 * 10) ∧
        handle_face_embeddings_results (mergedOut (slotEmbeddings sampleOracles 30 10) 12 8)
          = handle_face_embeddings_results (mergedOut (slotEmbeddings sampleOracles 30 10) 12 1) ∧
        get_face_crops_results (mergedOut (slotSaveCrops sampleOracles 30 10) 12 8)
          = get_face_crops_results (mergedOut (slotSaveCrops sampleOracles 30 10) 12 1)) :=
  ⟨by decide, C2_worker_count_equivalence sampleOracles 30 10 12 8 (by decide)⟩

lemma foldl_enum_append {σ β : Type} (proj : σ → List β) (xs : List σ) :
    ∀ acc : List (ℕ × β),
      xs.foldl (fun result x => result ++ ((proj x).enumFrom result.length)) acc
        = acc ++ ((xs.map proj).flatten).enumFrom acc.length := by
  induction xs with
  | nil => intro acc; simp
  | cons x rest ih =>
    intro acc
    simp only [List.foldl_cons, List.map_cons, List.flatten_cons]
    rw [ih, List.enumFrom_append, List.length_append, List.enumFrom_length,
      List.append_assoc]

lemma foldl_enum_map_append {σ β γ : Type} (proj : σ → List β) (T : σ → β → γ)
    (xs : List σ) :
    ∀ acc : List (ℕ × γ),
      xs.foldl (fun result x =>
          result ++ ((proj x).enumFrom result.length).map
            (fun q => (q.1, T x q.2))) acc
        = acc ++ ((xs.map (fun x => (proj x).map (T x))).flatten).enumFrom acc.length := by
  induction xs with
  | nil => intro acc; simp
  | cons x rest ih =>
    intro acc
    simp only [List.foldl_cons, List.map_cons, List.flatten_cons]
    rw [ih, List.enumFrom_append, List.length_append, List.length_map,
      List.enumFrom_length, List.append_assoc]
    have h : ((proj x).enumFrom acc.length).map (fun q => (q.1, T x q.2))
        = ((proj x).map (T x)).enumFrom acc.length := by
      have h2 := List.map_enumFrom (T x) acc.length (proj x)
      rw [← h2]
      apply List.map_congr_left
      intro a _
      rfl
    rw [h, List.length_map]

lemma handle_face_bboxes_eq (detected_faces : List (List BboxQ)) (stride : ℚ) :
    handle_face_bboxes_results detected_faces stride
      = (((detected_faces.enumFrom 0).map
          (fun p => p.2.map
            (fun b => FaceAtFrame.mk (Int.ceil ((p.1 : ℚ) * stride)) b))).flatten).enumFrom 0 := by
  simp [handle_face_bboxes_results,
    foldl_enum_map_append Prod.snd
      (fun (p : ℕ × List BboxQ) b => FaceAtFrame.mk (Int.ceil ((p.1 : ℚ) * stride)) b)
      (detected_faces.enumFrom 0) []]

lemma handle_face_embeddings_eq (face_embeddings : List (List EmbedVec)) :
    handle_face_embeddings_results face_embeddings
      = (face_embeddings.flatten).enumFrom 0 := by
  have hT : (fun q : ℕ × EmbedVec => (q.1, q.2.map (fun x => x)))
      = (fun q : ℕ × EmbedVec => q) := by
    funext q
    simp
  simp only [handle_face_embeddings_results, hT, List.map_id_fun', id]
  have h := foldl_enum_append (fun (l : List EmbedVec) => l) face_embeddings []
  simpa using h

lemma get_face_crops_eq {γ : Type} (face_crops : List (List γ)) :
    get_face_crops_results face_crops = (face_crops.flatten).enumFrom 0 := by
  have h := foldl_enum_append (fun (l : List γ) => l) face_crops []
  simp only [List.map_id_fun, id] at h
  simpa [get_face_crops_results, List.map_id] using h

lemma flatten_getElem? {β : Type} :
    ∀ (L : List (List β)) (f o : ℕ) (l : List β) (x : β),
      L[f]? = some l → l[o]? = some x →
      L.flatten[(((L.take f).map List.length).sum + o)]? = some x := by
  intro L
  induction L with
  | nil => intro f o l x h; simp at h
  | cons y rest ih =>
    intro f o l x hL hl
    cases f with
    | zero =>
      simp only [List.getElem?_cons_zero, Option.some.injEq] at hL
      subst hL
      have ho := (List.getElem?_eq_some_iff.mp hl).1
      simp only [List.take_zero, List.map_nil, List.sum_nil, Nat.zero_add,
        List.flatten_cons]
      rw [List.getElem?_append_left ho]
      exact hl
    | succ g =>
      simp only [List.getElem?_cons_succ] at hL
      simp only [List.take_succ_cons, List.map_cons, List.sum_cons,
        List.flatten_cons]
      rw [Nat.add_assoc, List.getElem?_append_right (Nat.le_add_right _ _)]
      rw [Nat.add_sub_cancel_left]
      exact ih g o l x hL hl

lemma enumFrom_zero_getElem? {β : Type} (L : List β) (k : ℕ) (x : β)
    (h : L[k]? = some x) : (L.enumFrom 0)[k]? = some (k, x) := by
  obtain ⟨hk, hx⟩ := List.getElem?_eq_some_iff.mp h
  have hk2 : k < (L.enumFrom 0).length := by
    simpa [List.enumFrom_length] using hk
  rw [List.getElem?_eq_getElem hk2, List.getElem_enumFrom]
  simp [hx]

lemma enumFrom_zero_map_fst {β : Type} (L : List β) :
    (L.enumFrom 0).map Prod.fst = List.range L.length := by
  rw [List.enumFrom_map_fst, List.range_eq_range']

/-- The frame-indexed transform applied by handle_face_bboxes_results to the
faces of one frame. -/
def bboxFrameEntry (stride : ℚ) (i : ℕ) (faces : List BboxQ) : List FaceAtFrame :=
  faces.map (fun b => FaceAtFrame.mk (Int.ceil ((i : ℚ) * stride)) b)

lemma handle_face_bboxes_eq2 (detected_faces : List (List BboxQ)) (stride : ℚ) :
    handle_face_bboxes_results detected_faces stride
      = (((detected_faces.enumFrom 0).map
          (fun p => bboxFrameEntry stride p.1 p.2)).flatten).enumFrom 0 := by
  rw [handle_face_bboxes_eq]
  rfl

lemma bbox_frames_map_length (detected_faces : List (List BboxQ)) (stride : ℚ) :
    ((detected_faces.enumFrom 0).map
        (fun p => bboxFrameEntry stride p.1 p.2)).map List.length
      = detected_faces.map List.length := by
  rw [List.map_map]
  have h : (List.length ∘ fun p : ℕ × List BboxQ => bboxFrameEntry stride p.1 p.2)
      = (List.length ∘ Prod.snd) := by
    funext p
    simp [bboxFrameEntry]
  rw [h, ← List.map_map, List.enumFrom_map_snd]

/-- C1: the face_id sequences produced by the three flattening functions are
0-based, gap-free and strictly increasing (each equals the range of the
total face count), assigned in ascending (frame, in-frame detection) order;
and when the per-frame bbox, embedding and crop lists have equal lengths
frame by frame, the o-th detection of frame f, the o-th embedding of frame
f and the o-th crop of frame f all receive the same face_id, namely the
number of faces of earlier frames plus o. -/
theorem C1_face_id_assignment {γ : Type} (detected : List (List BboxQ))
    (embs : List (List EmbedVec)) (crops : List (List γ)) (stride : ℚ)
    (hbe : detected.map List.length = embs.map List.length)
    (hbc : detected.map List.length = crops.map List.length) :
    ((handle_face_bboxes_results detected stride).map Prod.fst
        = List.range detected.flatten.length) ∧
    ((handle_face_embeddings_results embs).map Prod.fst
        = List.range detected.flatten.length) ∧
    ((get_face_crops_results crops).map Prod.fst
        = List.range detected.flatten.length) ∧
    (∀ f o faces face frameEmbs emb frameCrops c,
      detected[f]? = some faces → faces[o]? = some face →
      embs[f]? = some frameEmbs → frameEmbs[o]? = some emb →
      crops[f]? = some frameCrops → frameCrops[o]? = some c →
      (handle_face_bboxes_results detected stride)[(((detected.take f).map List.length).sum + o)]?
          = some ((((detected.take f).map List.length).sum + o),
              FaceAtFrame.mk (Int.ceil ((f : ℚ) * stride)) face) ∧
      (handle_face_embeddings_results embs)[(((detected.take f).map List.length).sum + o)]?
          = some ((((detected.take f).map List.length).sum + o), emb) ∧
      (get_face_crops_results crops)[(((detected.take f).map List.length).sum + o)]?
          = some ((((detected.take f).map List.length).sum + o), c)) := by
  have hlen_e : embs.flatten.length = detected.flatten.length := by
    rw [List.length_flatten, List.length_flatten, hbe]
  have hlen_c : crops.flatten.length = detected.flatten.length := by
    rw [List.length_flatten, List.length_flatten, hbc]
  have hlen_b : (((detected.enumFrom 0).map
      (fun p => bboxFrameEntry stride p.1 p.2)).flatten).length
      = detected.flatten.length := by
    rw [List.length_flatten, List.length_flatten, bbox_frames_map_length]
  refine ⟨?_, ?_, ?_, ?_⟩
  · rw [handle_face_bboxes_eq2, enumFrom_zero_map_fst, hlen_b]
  · rw [handle_face_embeddings_eq, enumFrom_zero_map_fst, hlen_e]
  · rw [get_face_crops_eq, enumFrom_zero_map_fst, hlen_c]
  · intro f o faces face frameEmbs emb frameCrops c hdf hfo hef heo hcf hco
    have htake_e : (embs.take f).map List.length = (detected.take f).map List.length := by
      rw [List.map_take, List.map_take, hbe]
    have htake_c : (crops.take f).map List.length = (detected.take f).map List.length := by
      rw [List.map_take, List.map_take, hbc]
    refine ⟨?_, ?_, ?_⟩
    · rw [handle_face_bboxes_eq2]
      apply enumFrom_zero_getElem?
      have hLb : ((detected.enumFrom 0).map
          (fun p => bboxFrameEntry stride p.1 p.2))[f]?
          = some (bboxFrameEntry stride f faces) := by
        rw [List.getElem?_map]
        have hde : (detected.enumFrom 0)[f]? = some (f, faces) := by
          exact enumFrom_zero_getElem? detected f faces hdf
        rw [hde]
        rfl
      have hface : (bboxFrameEntry stride f faces)[o]?
          = some (FaceAtFrame.mk (Int.ceil ((f : ℚ) * stride)) face) := by
        simp only [bboxFrameEntry, List.getElem?_map, hfo]
        rfl
      have h := flatten_getElem? _ f o _ _ hLb hface
      have htake_b : (((detected.enumFrom 0).map
          (fun p => bboxFrameEntry stride p.1 p.2)).take f).map List.length
          = (detected.take f).map List.length := by
        rw [List.map_take, List.map_take, bbox_frames_map_length]
      rw [htake_b] at h
      exact h
    · rw [handle_face_embeddings_eq]
      apply enumFrom_zero_getElem?
      have h := flatten_getElem? embs f o frameEmbs emb hef heo
      rw [htake_e] at h
      exact h
    · rw [get_face_crops_eq]
      apply enumFrom_zero_getElem?
      have h := flatten_getElem? crops f o frameCrops c hcf hco
      rw [htake_c] at h
      exact h

/-- Sample merged detection output used in witnesses: one face at frame 0,
none at frame 1, two at frame 2. -/
def sampleDetected : List (List BboxQ) := [[⟨0,0,1,1⟩], [], [⟨0,0,1,1⟩, ⟨0,0,1,2⟩]]

/-- Sample merged embeddings matching sampleDetected frame by frame. -/
def sampleEmbs : List (List EmbedVec) := [[[5]], [], [[6],[7]]]

/-- Sample merged crops matching sampleDetected frame by frame. -/
def sampleCrops : List (List ℕ) := [[10], [], [20, 30]]

theorem C1_face_id_assignment_witness :
    (sampleDetected.map List.length = sampleEmbs.map List.length) ∧
    ((handle_face_bboxes_results sampleDetected 0).map Prod.fst
        = List.range 3) ∧
    ((handle_face_embeddings_results sampleEmbs).map Prod.fst
        = List.range 3) ∧
    ((get_face_crops_results sampleCrops).map Prod.fst = List.range 3) := by
  have h := C1_face_id_assignment sampleDetected sampleEmbs sampleCrops 0
    (by simp [sampleDetected, sampleEmbs]) (by simp [sampleDetected, sampleCrops])
  have h3 : sampleDetected.flatten.length = 3 := by simp [sampleDetected]
  rw [h3] at h
  exact ⟨by simp [sampleDetected, sampleEmbs], h.1, h.2.1, h.2.2.1⟩

/-- C3: after the join barrier, if any of the three merged list lengths
differs from floor(frames / fps / interval) the video contributes no
artifact at all and processing continues with the remaining videos, and
when all three lengths agree the video contributes exactly the four
artifacts metadata, bboxes, embeddings and crops. -/
theorem C3_all_or_nothing {γ : Type} (interval : ℕ) (v : VideoInput γ)
    (rest : List (VideoInput γ)) :
    (((v.thread_bboxes.flatten.length : ℤ) ≠ targetSec v.meta interval ∨
        (v.thread_crops.flatten.length : ℤ) ≠ targetSec v.meta interval ∨
        (v.thread_embeddings.flatten.length : ℤ) ≠ targetSec v.meta interval) →
      process_videos_model interval (v :: rest) = process_videos_model interval rest) ∧
    (((v.thread_bboxes.flatten.length : ℤ) = targetSec v.meta interval ∧
        (v.thread_crops.flatten.length : ℤ) = targetSec v.meta interval ∧
        (v.thread_embeddings.flatten.length : ℤ) = targetSec v.meta interval) →
      process_videos_model interval (v :: rest)
        = { metadata := v.meta
            bboxes := handle_face_bboxes_results v.thread_bboxes.flatten
              (v.meta.fps * interval)
            embeddings := handle_face_embeddings_results v.thread_embeddings.flatten
            crops := get_face_crops_results v.thread_crops.flatten }
          :: process_videos_model interval rest) := by
  constructor
  · intro hmis
    have hnone : process_one_video interval v = none := by
      simp only [process_one_video]
      rw [if_pos hmis]
    simp only [process_videos_model]
    rw [List.filterMap_cons_none hnone]
  · intro hok
    have hsome : process_one_video interval v = some
        { metadata := v.meta
          bboxes := handle_face_bboxes_results v.thread_bboxes.flatten
            (v.meta.fps * interval)
          embeddings := handle_face_embeddings_results v.thread_embeddings.flatten
          crops := get_face_crops_results v.thread_crops.flatten } := by
      simp only [process_one_video]
      rw [if_neg (by push_neg; exact ⟨hok.1, hok.2.1, hok.2.2⟩)]
    simp only [process_videos_model]
    rw [List.filterMap_cons_some hsome]

/-- Sample video input whose merged lengths all equal its slot total of 3. -/
def sampleVideoGood : VideoInput ℕ :=
  { meta := { name := "good", fps := 1, frames := 3, width := 8, height := 8 }
    thread_bboxes := [[[], [], []]]
    thread_crops := [[[], [], []]]
    thread_embeddings := [[[], [], []]] }

/-- Sample video input with a decode failure: one thread returned early, so
only two of the three expected per-frame entries exist. -/
def sampleVideoBad : VideoInput ℕ :=
  { meta := { name := "bad", fps := 1, frames := 3, width := 8, height := 8 }
    thread_bboxes := [[[], []]]
    thread_crops := [[[], []]]
    thread_embeddings := [[[], []]] }

theorem C3_all_or_nothing_witness :
    ((sampleVideoBad.thread_bboxes.flatten.length : ℤ)
        ≠ targetSec sampleVideoBad.meta 1) ∧
    process_videos_model 1 [sampleVideoBad, sampleVideoGood]
      = process_videos_model 1 [sampleVideoGood] ∧
    process_videos_model 1 [sampleVideoGood]
      = [{ metadata := sampleVideoGood.meta
           bboxes := handle_face_bboxes_results sampleVideoGood.thread_bboxes.flatten
             (sampleVideoGood.meta.fps * 1)
           embeddings := handle_face_embeddings_results
             sampleVideoGood.thread_embeddings.flatten
           crops := get_face_crops_results sampleVideoGood.thread_crops.flatten }] := by
  have htb : targetSec sampleVideoBad.meta 1 = 3 := by
    norm_num [targetSec, sampleVideoBad]
  have htg : targetSec sampleVideoGood.meta 1 = 3 := by
    norm_num [targetSec, sampleVideoGood]
  have hbad : (sampleVideoBad.thread_bboxes.flatten.length : ℤ)
      ≠ targetSec sampleVideoBad.meta 1 := by
    rw [htb]
    simp [sampleVideoBad]
  refine ⟨hbad, ?_, ?_⟩
  · exact (C3_all_or_nothing 1 sampleVideoBad [sampleVideoGood]).1 (Or.inl hbad)
  · have h := (C3_all_or_nothing 1 sampleVideoGood []).2
      (by rw [htg]; simp [sampleVideoGood])
    simpa [process_videos_model] using h

lemma searchLoop_ok (call : ℕ → Option AwsResponse) (resp : AwsResponse) :
    ∀ (k n i : ℕ) (acc : List ℕ), k < n →
      (∀ j, j < k → call (i + j) = none) → call (i + k) = some resp →
      searchLoop call n i acc
        = SearchResult.ok resp (acc.reverse ++ (List.range' i k).map (fun j => 2 ^ j)) := by
  intro k
  induction k with
  | zero =>
    intro n i acc hn hfail hc
    obtain ⟨m, rfl⟩ : ∃ m, n = m + 1 := ⟨n - 1, by omega⟩
    rw [show i + 0 = i from rfl] at hc
    simp [searchLoop, hc]
  | succ k ih =>
    intro n i acc hn hfail hc
    obtain ⟨m, rfl⟩ : ∃ m, n = m + 1 := ⟨n - 1, by omega⟩
    have h0 : call i = none := by
      have := hfail 0 (by omega)
      simpa using this
    simp only [searchLoop, h0]
    have hfail2 : ∀ j, j < k → call (i + 1 + j) = none := by
      intro j hj
      have := hfail (j + 1) (by omega)
      rw [show i + (j + 1) = i + 1 + j from by omega] at this
      exact this
    have hc2 : call (i + 1 + k) = some resp := by
      rw [show i + 1 + k = i + (k + 1) from by omega]
      exact hc
    rw [ih m (i + 1) (2 ^ i :: acc) (by omega) hfail2 hc2]
    rw [List.reverse_cons, List.range'_succ, List.map_cons, List.append_assoc]
    rfl

lemma searchLoop_exhaust (call : ℕ → Option AwsResponse) :
    ∀ (n i : ℕ) (acc : List ℕ), (∀ j, j < n → call (i + j) = none) →
      searchLoop call n i acc
        = SearchResult.exhausted (acc.reverse ++ (List.range' i n).map (fun j => 2 ^ j)) := by
  intro n
  induction n with
  | zero => intro i acc _; simp [searchLoop]
  | succ m ih =>
    intro i acc hfail
    have h0 : call i = none := by
      have := hfail 0 (by omega)
      simpa using this
    simp only [searchLoop, h0]
    have hfail2 : ∀ j, j < m → call (i + 1 + j) = none := by
      intro j hj
      have := hfail (j + 1) (by omega)
      rw [show i + (j + 1) = i + 1 + j from by omega] at this
      exact this
    rw [ih (i + 1) (2 ^ i :: acc) hfail2]
    rw [List.reverse_cons, List.range'_succ, List.map_cons, List.append_assoc]
    rfl

/-- C8: search_aws fails immediately, with no attempt and no delay, when the
payload size exceeds the 5 MiB cap; below the cap it makes up to ten
attempts, sleeping 2 to the power of the attempt index after each failed
attempt; on the first successful attempt k it returns the response
unchanged having slept 1, 2, ..., 2 to the k minus 1 seconds; and when all
ten attempts fail it raises the fatal exhaustion outcome after the full
backoff schedule, returning no partial result. -/
theorem C8_retry_policy (call : ℕ → Option AwsResponse) (size : ℕ)
    (resp : AwsResponse) (k : ℕ) :
    (SIZE_CAP < size → search_aws call size = SearchResult.tooLarge size) ∧
    (size ≤ SIZE_CAP → k < 10 → (∀ j, j < k → call j = none) →
      call k = some resp →
      search_aws call size
        = SearchResult.ok resp ((List.range k).map (fun j => 2 ^ j))) ∧
    (size ≤ SIZE_CAP → (∀ j, j < 10 → call j = none) →
      search_aws call size
        = SearchResult.exhausted ((List.range 10).map (fun j => 2 ^ j))) := by
  refine ⟨?_, ?_, ?_⟩
  · intro h
    simp [search_aws, h]
  · intro hsz hk hfail hc
    rw [search_aws, if_neg (by omega)]
    have h := searchLoop_ok call resp k 10 0 [] hk
      (by intro j hj; simpa using hfail j hj) (by simpa using hc)
    rw [h]
    simp [List.range_eq_range']
  · intro hsz hfail
    rw [search_aws, if_neg (by omega)]
    have h := searchLoop_exhaust call 10 0 []
      (by intro j hj; simpa using hfail j hj)
    rw [h]
    simp [List.range_eq_range']

/-- The empty recognition response. -/
def emptyResp : AwsResponse := { celebrityFaces := [], unrecognizedFaces := [] }

/-- An attempt-indexed call that fails twice and then succeeds. -/
def callTwiceFail : ℕ → Option AwsResponse :=
  fun j => if j < 2 then none else some emptyResp

theorem C8_retry_policy_witness :
    ((100 ≤ SIZE_CAP) ∧
      search_aws callTwiceFail 100 = SearchResult.ok emptyResp [1, 2]) ∧
    search_aws (fun _ => none) 100
      = SearchResult.exhausted [1, 2, 4, 8, 16, 32, 64, 128, 256, 512] := by
  constructor
  · refine ⟨by norm_num [SIZE_CAP], ?_⟩
    have h := (C8_retry_policy callTwiceFail 100 emptyResp 2).2.1
      (by norm_num [SIZE_CAP]) (by norm_num)
      (by intro j hj; simp [callTwiceFail]; omega) (by simp [callTwiceFail])
    rw [h]
    rfl
  · have h := (C8_retry_policy (fun _ => none) 100 emptyResp 0).2.2
      (by norm_num [SIZE_CAP]) (by intro j hj; rfl)
    rw [h]
    rfl

/-- C7: when the encoded montage would exceed the 5 MiB cap, the crop file
sequence is split exactly once into its first floor(n / 2) files and the
remaining files, order preserved; each half is built and submitted as an
independent montage and the two label lists are concatenated first half
then second half; and there is no recursive re-split: if the first half
itself still exceeds the cap its submission fails with the size assertion
instead of being split again. -/
theorem C7_montage_split (msize : List ℕ → ℕ) (mmeta : List ℕ → MontageMeta)
    (recognize : List ℕ → ℕ → Option AwsResponse) (img_files : List ℕ)
    (res1 res2 : AwsResponse) (d1 d2 : List ℕ)
    (hsz : SIZE_CAP < msize img_files) :
    ((img_files.take (img_files.length / 2)).length = img_files.length / 2 ∧
      (img_files.drop (img_files.length / 2)).length
        = img_files.length - img_files.length / 2 ∧
      img_files.take (img_files.length / 2) ++ img_files.drop (img_files.length / 2)
        = img_files) ∧
    (search_aws (recognize (img_files.take (img_files.length / 2)))
        (msize (img_files.take (img_files.length / 2))) = SearchResult.ok res1 d1 →
      search_aws (recognize (img_files.drop (img_files.length / 2)))
        (msize (img_files.drop (img_files.length / 2))) = SearchResult.ok res2 d2 →
      submit_images_for_labeling msize mmeta recognize img_files
        = Except.ok
          (process_labeling_results (mmeta (img_files.take (img_files.length / 2))).cols
              (mmeta (img_files.take (img_files.length / 2))).block_dim
              (img_files.take (img_files.length / 2)) res1
            ++ process_labeling_results (mmeta (img_files.drop (img_files.length / 2))).cols
              (mmeta (img_files.drop (img_files.length / 2))).block_dim
              (img_files.drop (img_files.length / 2)) res2)) ∧
    (SIZE_CAP < msize (img_files.take (img_files.length / 2)) →
      submit_images_for_labeling msize mmeta recognize img_files
        = Except.error "File too large") := by
  refine ⟨⟨?_, ?_, ?_⟩, ?_, ?_⟩
  · rw [List.length_take]
    omega
  · rw [List.length_drop]
  · exact List.take_append_drop _ _
  · intro h1 h2
    rw [submit_images_for_labeling, if_pos (by omega)]
    simp only [h1, h2]
  · intro hhalf
    rw [submit_images_for_labeling, if_pos (by omega)]
    have h1 : search_aws (recognize (img_files.take (img_files.length / 2)))
        (msize (img_files.take (img_files.length / 2)))
        = SearchResult.tooLarge (msize (img_files.take (img_files.length / 2))) := by
      rw [search_aws, if_pos hhalf]
    simp only [h1]

/-- Twenty crop files, ids 0 to 19. -/
def files20 : List ℕ := List.range 20

/-- Montage size oracle for the witness: the full twenty-file montage
encodes to 6 MiB, any other montage to 1000 bytes. -/
def msize20 : List ℕ → ℕ := fun l => if l.length = 20 then 6 * 1024 * 1024 else 1000

theorem C7_montage_split_witness :
    (SIZE_CAP < msize20 files20) ∧
    (files20.take (files20.length / 2)).length = 10 ∧
    (files20.drop (files20.length / 2)).length = 10 ∧
    submit_images_for_labeling msize20 (fun _ => MontageMeta.mk 5 100)
      (fun _ _ => some emptyResp) files20 = Except.ok [] := by
  have hsz : SIZE_CAP < msize20 files20 := by decide
  have h := C7_montage_split msize20 (fun _ => MontageMeta.mk 5 100)
    (fun _ _ => some emptyResp) files20 emptyResp emptyResp [] [] hsz
  refine ⟨hsz, by decide, by decide, ?_⟩
  have hok : ∀ l : List ℕ, l.length = 10 →
      search_aws ((fun (_ : List ℕ) (_ : ℕ) => some emptyResp) l) (msize20 l)
        = SearchResult.ok emptyResp [] := by
    intro l hl
    rw [search_aws, if_neg (by simp [msize20, hl, SIZE_CAP])]
    rfl
  have hres := h.2.1 (hok _ (by decide)) (hok _ (by decide))
  rw [hres]
  rfl

lemma lookupL_setL_self (m : Labels) (k : ℕ) (v : FaceLabel) :
    lookupL (setL m k v) k = some v := by
  induction m with
  | nil => simp [setL, lookupL]
  | cons p rest ih =>
    by_cases h : p.1 = k
    · simp [setL, h, lookupL]
    · simp [setL, h, lookupL, ih]

lemma lookupL_setL_other (m : Labels) (k k2 : ℕ) (v : FaceLabel) (h : k2 ≠ k) :
    lookupL (setL m k v) k2 = lookupL m k2 := by
  induction m with
  | nil => simp [setL, lookupL, Ne.symm h]
  | cons p rest ih =>
    by_cases hp : p.1 = k
    · simp only [setL, if_pos hp, lookupL]
      rw [if_neg (fun hh => h hh.symm), if_neg (by rw [hp]; exact fun hh => h hh.symm)]
    · simp only [setL, if_neg hp, lookupL, ih]

lemma lookupL_delL_other (m : Labels) (k k2 : ℕ) (h : k2 ≠ k) :
    lookupL (delL m k) k2 = lookupL m k2 := by
  induction m with
  | nil => simp [delL]
  | cons p rest ih =>
    by_cases hp : p.1 = k
    · simp only [delL, if_pos hp, lookupL]
      rw [if_neg (by rw [hp]; exact fun hh => h hh.symm)]
    · simp only [delL, if_neg hp, lookupL, ih]

lemma lookupL_none_iff (m : Labels) (k : ℕ) :
    lookupL m k = none ↔ k ∉ m.map Prod.fst := by
  induction m with
  | nil => simp [lookupL]
  | cons p rest ih =>
    by_cases hp : p.1 = k
    · simp [lookupL, hp]
    · have hkp : ¬k = p.1 := fun hh => hp hh.symm
      simp [lookupL, hp, ih, hkp]

lemma lookupL_delL_self (m : Labels) (k : ℕ)
    (h : (m.map Prod.fst).Nodup) : lookupL (delL m k) k = none := by
  induction m with
  | nil => simp [delL, lookupL]
  | cons p rest ih =>
    rw [List.map_cons, List.nodup_cons] at h
    by_cases hp : p.1 = k
    · simp only [delL, if_pos hp]
      rw [lookupL_none_iff]
      rw [← hp]
      exact h.1
    · simp only [delL, if_neg hp, lookupL, if_neg hp]
      exact ih h.2

lemma delL_keys_mem (m : Labels) (k k2 : ℕ)
    (h : k2 ∈ (delL m k).map Prod.fst) : k2 ∈ m.map Prod.fst := by
  induction m with
  | nil => simpa [delL] using h
  | cons p rest ih =>
    by_cases hp : p.1 = k
    · simp only [delL, if_pos hp] at h
      simp [h]
    · simp only [delL, if_neg hp, List.map_cons, List.mem_cons] at h ⊢
      rcases h with h | h
      · exact Or.inl h
      · exact Or.inr (ih h)

lemma delL_nodup (m : Labels) (k : ℕ) (h : (m.map Prod.fst).Nodup) :
    ((delL m k).map Prod.fst).Nodup := by
  induction m with
  | nil => simp [delL]
  | cons p rest ih =>
    rw [List.map_cons, List.nodup_cons] at h
    by_cases hp : p.1 = k
    · simp only [delL, if_pos hp]
      exact h.2
    · simp only [delL, if_neg hp, List.map_cons, List.nodup_cons]
      exact ⟨fun hmem => h.1 (delL_keys_mem rest k p.1 hmem), ih h.2⟩

lemma lookupL_delL_some (m : Labels) (k0 k : ℕ) (v : FaceLabel)
    (hnd : (m.map Prod.fst).Nodup) (h : lookupL (delL m k0) k = some v) :
    lookupL m k = some v := by
  by_cases hk : k = k0
  · subst hk
    rw [lookupL_delL_self m k hnd] at h
    exact absurd h (by simp)
  · rwa [lookupL_delL_other m k0 k hk] at h

lemma unrecStep_eq_or (n_cols block_size : ℕ) (img_ids : List ℕ)
    (labels : Labels) (box : AwsBox) :
    unrecStep n_cols block_size img_ids labels box = labels ∨
    ∃ fid, unrecStep n_cols block_size img_ids labels box = delL labels fid := by
  simp only [unrecStep]
  split
  · split
    · split
      · split
        · exact Or.inr ⟨_, rfl⟩
        · exact Or.inl rfl
      · exact Or.inl rfl
    · exact Or.inl rfl
  · exact Or.inl rfl

lemma unrecStep_preserve (n_cols block_size : ℕ) (img_ids : List ℕ)
    (labels : Labels) (box : AwsBox) (k : ℕ) (v : FaceLabel)
    (hnd : (labels.map Prod.fst).Nodup)
    (h : lookupL (unrecStep n_cols block_size img_ids labels box) k = some v) :
    lookupL labels k = some v := by
  rcases unrecStep_eq_or n_cols block_size img_ids labels box with heq | ⟨fid, heq⟩
  · rwa [heq] at h
  · rw [heq] at h
    exact lookupL_delL_some labels fid k v hnd h

lemma unrecStep_nodup (n_cols block_size : ℕ) (img_ids : List ℕ)
    (labels : Labels) (box : AwsBox) (hnd : (labels.map Prod.fst).Nodup) :
    ((unrecStep n_cols block_size img_ids labels box).map Prod.fst).Nodup := by
  rcases unrecStep_eq_or n_cols block_size img_ids labels box with heq | ⟨fid, heq⟩
  · rwa [heq]
  · rw [heq]
    exact delL_nodup labels fid hnd

lemma unrec_fold_preserve (n_cols block_size : ℕ) (img_ids : List ℕ) :
    ∀ (boxes : List AwsBox) (m : Labels), (m.map Prod.fst).Nodup →
      ∀ k v, lookupL (boxes.foldl (unrecStep n_cols block_size img_ids) m) k = some v →
        lookupL m k = some v := by
  intro boxes
  induction boxes with
  | nil => intro m _ k v h; simpa using h
  | cons b rest ih =>
    intro m hnd k v h
    simp only [List.foldl_cons] at h
    have h2 := ih (unrecStep n_cols block_size img_ids m b)
      (unrecStep_nodup n_cols block_size img_ids m b hnd) k v h
    exact unrecStep_preserve n_cols block_size img_ids m b k v hnd h2

/-- C5 (amended): for a recognized detection whose row-major grid cell is in
range, the decoder accepts it as a candidate for that cell exactly when
both axis residuals, computed against half_block_size = int(block_size / 2),
are under sixth_block_size = int(block_size / 6) (integer-truncated
thresholds); on acceptance the cell face_id holds the new label if the
face_id was free or the new l1 distance is strictly smaller than the stored
one, otherwise the stored label survives, and no other face_id changes. -/
theorem C5_decoder_acceptance (n_cols block_size : ℕ) (img_ids : List ℕ)
    (labels : Labels) (face : CelebFace)
    (hidx : 0 ≤ cellIdx n_cols block_size img_ids.length face.box ∧
      cellIdx n_cols block_size img_ids.length face.box < (img_ids.length : ℤ)) :
    (¬(residualOf (recCenterX n_cols block_size face.box) block_size
          < ((block_size / 6 : ℕ) : ℚ) ∧
        residualOf (recCenterY n_cols block_size img_ids.length face.box) block_size
          < ((block_size / 6 : ℕ) : ℚ)) →
      recStep n_cols block_size img_ids labels face = labels) ∧
    ((residualOf (recCenterX n_cols block_size face.box) block_size
          < ((block_size / 6 : ℕ) : ℚ) ∧
        residualOf (recCenterY n_cols block_size img_ids.length face.box) block_size
          < ((block_size / 6 : ℕ) : ℚ)) →
      lookupL (recStep n_cols block_size img_ids labels face)
          (img_ids.getD (cellIdx n_cols block_size img_ids.length face.box).toNat 0)
        = some (match lookupL labels
            (img_ids.getD (cellIdx n_cols block_size img_ids.length face.box).toNat 0) with
          | none => FaceLabel.mk face.name face.confidence
              (residualOf (recCenterX n_cols block_size face.box) block_size
                + residualOf (recCenterY n_cols block_size img_ids.length face.box) block_size)
              (gridOf (recCenterX n_cols block_size face.box) block_size)
              (gridOf (recCenterY n_cols block_size img_ids.length face.box) block_size)
          | some old =>
            if residualOf (recCenterX n_cols block_size face.box) block_size
                + residualOf (recCenterY n_cols block_size img_ids.length face.box) block_size
                < old.l1_dist
            then FaceLabel.mk face.name face.confidence
              (residualOf (recCenterX n_cols block_size face.box) block_size
                + residualOf (recCenterY n_cols block_size img_ids.length face.box) block_size)
              (gridOf (recCenterX n_cols block_size face.box) block_size)
              (gridOf (recCenterY n_cols block_size img_ids.length face.box) block_size)
            else old) ∧
      (∀ k2, k2 ≠ img_ids.getD (cellIdx n_cols block_size img_ids.length face.box).toNat 0 →
        lookupL (recStep n_cols block_size img_ids labels face) k2 = lookupL labels k2)) := by
  simp only [cellIdx] at hidx
  constructor
  · intro h
    simp only [recStep]
    rw [if_neg h]
  · intro h
    simp only [recStep, cellIdx]
    rw [if_pos h, if_pos hidx]
    cases hl : lookupL labels
        (img_ids.getD (gridOf (recCenterY n_cols block_size img_ids.length face.box) block_size * n_cols
          + gridOf (recCenterX n_cols block_size face.box) block_size).toNat 0) with
    | none =>
      refine ⟨lookupL_setL_self _ _ _, ?_⟩
      intro k2 hk2
      exact lookupL_setL_other _ _ _ _ hk2
    | some old =>
      simp only [gt_iff_lt]
      by_cases hcmp : residualOf (recCenterX n_cols block_size face.box) block_size
          + residualOf (recCenterY n_cols block_size img_ids.length face.box) block_size
          < old.l1_dist
      · rw [if_pos hcmp, if_pos hcmp]
        refine ⟨lookupL_setL_self _ _ _, ?_⟩
        intro k2 hk2
        exact lookupL_setL_other _ _ _ _ hk2
      · rw [if_neg hcmp, if_neg hcmp]
        exact ⟨hl, fun k2 _ => rfl⟩

/-- Box of the scenario detection: centered exactly at the center of grid
cell (1, 1) of a 3 by 3 montage with block size 300. -/
def box300 : AwsBox := { left := 9/20, top := 9/20, width := 1/10, height := 1/10 }

/-- The scenario recognized detection. -/
def face300 : CelebFace := { name := "A", confidence := 99, box := box300 }

theorem C5_decoder_acceptance_witness :
    (0 ≤ cellIdx 3 300 9 box300 ∧ cellIdx 3 300 9 box300 < (9 : ℤ)) ∧
    (residualOf (recCenterX 3 300 box300) 300 < ((300 / 6 : ℕ) : ℚ) ∧
      residualOf (recCenterY 3 300 9 box300) 300 < ((300 / 6 : ℕ) : ℚ)) ∧
    lookupL (recStep 3 300 [10, 11, 12, 13, 14, 15, 16, 17, 18] [] face300) 14
      = some (FaceLabel.mk "A" 99 0 1 1) := by
  have hcx : recCenterX 3 300 box300 = 450 := by
    norm_num [recCenterX, centerX, montageWidth, box300]
  have hcy : recCenterY 3 300 9 box300 = 450 := by
    norm_num [recCenterY, centerY, montageHeight, box300]
  have hfloor : Int.floor ((450 : ℚ) / 300) = 1 := by
    norm_num [Int.floor_eq_iff]
  have hq : qmod 450 300 = 150 := by
    rw [qmod, hfloor]
    norm_num
  have hres : residualOf 450 300 = 0 := by
    rw [residualOf]
    norm_num [hq]
  have hgrid : gridOf 450 300 = 1 := by
    rw [gridOf]
    norm_num [hfloor]
  have hcell : cellIdx 3 300 9 box300 = 4 := by
    rw [cellIdx, hcx, hcy, hgrid]
    norm_num
  have hrs : residualOf (recCenterX 3 300 box300) 300 < ((300 / 6 : ℕ) : ℚ) ∧
      residualOf (recCenterY 3 300 9 box300) 300 < ((300 / 6 : ℕ) : ℚ) := by
    rw [hcx, hcy, hres]
    norm_num
  have hlen : ([10, 11, 12, 13, 14, 15, 16, 17, 18] : List ℕ).length = 9 := rfl
  have hbox : face300.box = box300 := rfl
  have hidx : 0 ≤ cellIdx 3 300
        ([10, 11, 12, 13, 14, 15, 16, 17, 18] : List ℕ).length face300.box ∧
      cellIdx 3 300 ([10, 11, 12, 13, 14, 15, 16, 17, 18] : List ℕ).length face300.box
        < (([10, 11, 12, 13, 14, 15, 16, 17, 18] : List ℕ).length : ℤ) := by
    rw [hlen, hbox, hcell]
    norm_num
  refine ⟨by rw [hcell]; norm_num, hrs, ?_⟩
  have h := ((C5_decoder_acceptance 3 300 [10, 11, 12, 13, 14, 15, 16, 17, 18]
    [] face300 hidx).2 (by rw [hlen, hbox]; exact hrs)).1
  rw [hlen, hbox, hcell] at h
  rw [show ([10, 11, 12, 13, 14, 15, 16, 17, 18] : List ℕ).getD (Int.toNat 4) 0 = 14
    from rfl] at h
  rw [show lookupL [] 14 = none from rfl] at h
  rw [hcx, hcy, hres, hgrid] at h
  simpa [face300] using h

/-- Box of the C5 refutation: its center sits at pixel (5.25, 4) of a one
cell montage with block size 8, so both exact residuals are under 8 / 6
(the middle third of the cell) but the code threshold int(8 / 6) = 1
rejects the horizontal residual 1.25. -/
def box58 : AwsBox := { left := 21/32, top := 1/2, width := 0, height := 0 }

/-- The C5 refutation detection. -/
def face58 : CelebFace := { name := "A", confidence := 9/10, box := box58 }

theorem C5_counterexample :
    (|qmod (recCenterX 1 8 box58) 8 - (8 : ℚ) / 2| < (8 : ℚ) / 6 ∧
      |qmod (recCenterY 1 8 1 box58) 8 - (8 : ℚ) / 2| < (8 : ℚ) / 6) ∧
    (0 ≤ cellIdx 1 8 1 box58 ∧ cellIdx 1 8 1 box58 < (1 : ℤ)) ∧
    recStep 1 8 [0] [] face58 = [] := by
  have hcx : recCenterX 1 8 box58 = 21/4 := by
    norm_num [recCenterX, centerX, montageWidth, box58]
  have hcy : recCenterY 1 8 1 box58 = 4 := by
    norm_num [recCenterY, centerY, montageHeight, box58]
  have hf1 : Int.floor ((21 : ℚ) / 4 / 8) = 0 := by
    norm_num [Int.floor_eq_iff]
  have hf2 : Int.floor ((4 : ℚ) / 8) = 0 := by
    norm_num [Int.floor_eq_iff]
  have hq1 : qmod (21/4) 8 = 21/4 := by
    rw [qmod, hf1]
    norm_num
  have hq2 : qmod 4 8 = 4 := by
    rw [qmod, hf2]
    norm_num
  have hg1 : gridOf ((21 : ℚ)/4) 8 = 0 := by
    rw [gridOf]
    norm_num [hf1]
  have hg2 : gridOf ((4 : ℚ)) 8 = 0 := by
    rw [gridOf]
    norm_num [hf2]
  have hr1 : residualOf (recCenterX 1 8 box58) 8 = 5/4 := by
    rw [residualOf, hcx]
    norm_num [hq1]
  refine ⟨⟨?_, ?_⟩, ⟨?_, ?_⟩, ?_⟩
  · rw [hcx, hq1]
    norm_num [abs_lt]
  · rw [hcy, hq2]
    norm_num [abs_lt]
  · rw [cellIdx, hcx, hcy, hg1, hg2]
    norm_num
  · rw [cellIdx, hcx, hcy, hg1, hg2]
    norm_num
  · simp only [recStep]
    rw [show face58.box = box58 from rfl]
    rw [if_neg (fun hcon => absurd hcon.1 (by rw [hr1]; norm_num))]

/-- C6 (amended): for an unrecognized detection whose in-range grid cell
face_id currently holds an accepted recognized candidate, the decoder
removes that candidate exactly when both axis residuals are under the
Python int() of block_size / 2 and the l1 residual of the unrecognized
detection is strictly smaller than the stored one; no other face_id is
touched; the unrecognized pass never adds or alters a binding, so no
alternative label is ever re-admitted; and a face_id with no surviving
candidate is absent from the emitted label list. -/
theorem C6_unrecognized_retraction (n_cols block_size : ℕ) (img_ids : List ℕ)
    (labels : Labels) (box : AwsBox) (old : FaceLabel)
    (hnd : (labels.map Prod.fst).Nodup)
    (hidx : 0 ≤ cellIdx n_cols block_size img_ids.length box ∧
      cellIdx n_cols block_size img_ids.length box < (img_ids.length : ℤ))
    (hold : lookupL labels
      (img_ids.getD (cellIdx n_cols block_size img_ids.length box).toNat 0)
      = some old) :
    (lookupL (unrecStep n_cols block_size img_ids labels box)
        (img_ids.getD (cellIdx n_cols block_size img_ids.length box).toNat 0) = none
      ↔ (residualOf (recCenterX n_cols block_size box) block_size
            < ((block_size / 2 : ℕ) : ℚ) ∧
          residualOf (recCenterY n_cols block_size img_ids.length box) block_size
            < ((block_size / 2 : ℕ) : ℚ) ∧
          residualOf (recCenterX n_cols block_size box) block_size
              + residualOf (recCenterY n_cols block_size img_ids.length box) block_size
            < old.l1_dist)) ∧
    (∀ k2, k2 ≠ img_ids.getD (cellIdx n_cols block_size img_ids.length box).toNat 0 →
      lookupL (unrecStep n_cols block_size img_ids labels box) k2 = lookupL labels k2) ∧
    (∀ (boxes : List AwsBox) (m : Labels) (k : ℕ) (v : FaceLabel),
      (m.map Prod.fst).Nodup →
      lookupL (boxes.foldl (unrecStep n_cols block_size img_ids) m) k = some v →
      lookupL m k = some v) ∧
    (∀ (resp : AwsResponse) (k : ℕ),
      lookupL (finalLabels n_cols block_size img_ids resp) k = none →
      k ∉ (process_labeling_results n_cols block_size img_ids resp).map
        (fun t => t.1)) := by
  simp only [cellIdx] at hidx hold
  refine ⟨?_, ?_, ?_, ?_⟩
  · simp only [unrecStep, cellIdx]
    by_cases hc : residualOf (recCenterX n_cols block_size box) block_size
          < ((block_size / 2 : ℕ) : ℚ) ∧
        residualOf (recCenterY n_cols block_size img_ids.length box) block_size
          < ((block_size / 2 : ℕ) : ℚ)
    · rw [if_pos hc, if_pos hidx, hold]
      simp only [gt_iff_lt]
      by_cases hcmp : residualOf (recCenterX n_cols block_size box) block_size
          + residualOf (recCenterY n_cols block_size img_ids.length box) block_size
          < old.l1_dist
      · rw [if_pos hcmp]
        simp [lookupL_delL_self labels _ hnd, hc.1, hc.2, hcmp]
      · rw [if_neg hcmp]
        rw [hold]
        simp only [reduceCtorEq, false_iff]
        exact fun hcon => hcmp hcon.2.2
    · rw [if_neg hc]
      rw [hold]
      simp only [reduceCtorEq, false_iff]
      exact fun hcon => hc ⟨hcon.1, hcon.2.1⟩
  · intro k2 hk2
    simp only [cellIdx] at hk2
    simp only [unrecStep]
    by_cases hc : residualOf (recCenterX n_cols block_size box) block_size
          < ((block_size / 2 : ℕ) : ℚ) ∧
        residualOf (recCenterY n_cols block_size img_ids.length box) block_size
          < ((block_size / 2 : ℕ) : ℚ)
    · rw [if_pos hc, if_pos hidx, hold]
      simp only [gt_iff_lt]
      by_cases hcmp : residualOf (recCenterX n_cols block_size box) block_size
          + residualOf (recCenterY n_cols block_size img_ids.length box) block_size
          < old.l1_dist
      · rw [if_pos hcmp]
        exact lookupL_delL_other labels _ k2 hk2
      · rw [if_neg hcmp]
    · rw [if_neg hc]
  · intro boxes m k v hnd2 h
    exact unrec_fold_preserve n_cols block_size img_ids boxes m hnd2 k v h
  · intro resp k hnone hmem
    rw [lookupL_none_iff] at hnone
    apply hnone
    simp only [process_labeling_results, List.map_map] at hmem
    simpa using hmem

/-- Stored recognized candidate used in the C6 witness. -/
def lblB : FaceLabel := { name := "B", confidence := 80, l1_dist := 100, grid_x := 0, grid_y := 0 }

theorem C6_unrecognized_retraction_witness :
    ((([(5, lblB)] : Labels).map Prod.fst).Nodup) ∧
    (0 ≤ cellIdx 1 300 1 box300 ∧ cellIdx 1 300 1 box300 < (1 : ℤ)) ∧
    lookupL [(5, lblB)] 5 = some lblB ∧
    lookupL (unrecStep 1 300 [5] [(5, lblB)] box300) 5 = none := by
  have hcx : recCenterX 1 300 box300 = 150 := by
    norm_num [recCenterX, centerX, montageWidth, box300]
  have hcy : recCenterY 1 300 1 box300 = 150 := by
    norm_num [recCenterY, centerY, montageHeight, box300]
  have hf : Int.floor ((150 : ℚ) / 300) = 0 := by
    norm_num [Int.floor_eq_iff]
  have hq : qmod 150 300 = 150 := by
    rw [qmod, hf]
    norm_num
  have hres : residualOf 150 300 = 0 := by
    rw [residualOf]
    norm_num [hq]
  have hg : gridOf ((150 : ℚ)) 300 = 0 := by
    rw [gridOf]
    norm_num [hf]
  have hcell : cellIdx 1 300 1 box300 = 0 := by
    rw [cellIdx, hcx, hcy, hg]
    norm_num
  have hlen : ([5] : List ℕ).length = 1 := rfl
  have hidx : 0 ≤ cellIdx 1 300 ([5] : List ℕ).length box300 ∧
      cellIdx 1 300 ([5] : List ℕ).length box300 < (([5] : List ℕ).length : ℤ) := by
    rw [hlen, hcell]
    norm_num
  have hold : lookupL [(5, lblB)]
      (([5] : List ℕ).getD (cellIdx 1 300 ([5] : List ℕ).length box300).toNat 0)
      = some lblB := by
    rw [hlen, hcell]
    rfl
  have hc1 : residualOf (recCenterX 1 300 box300) 300 < ((300 / 2 : ℕ) : ℚ) := by
    rw [hcx, hres]
    norm_num
  have hc2 : residualOf (recCenterY 1 300 ([5] : List ℕ).length box300) 300
      < ((300 / 2 : ℕ) : ℚ) := by
    rw [hlen, hcy, hres]
    norm_num
  have hc3 : residualOf (recCenterX 1 300 box300) 300
      + residualOf (recCenterY 1 300 ([5] : List ℕ).length box300) 300
      < lblB.l1_dist := by
    rw [hlen, hcx, hcy, hres]
    norm_num [lblB]
  have h := (C6_unrecognized_retraction 1 300 [5] [(5, lblB)] box300 lblB
    (by simp) hidx hold).1.mpr ⟨hc1, hc2, hc3⟩
  rw [hlen, hcell] at h
  refine ⟨by simp, by rw [hcell]; norm_num, rfl, ?_⟩
  rw [show ([5] : List ℕ).getD (Int.toNat 0) 0 = 5 from rfl] at h
  exact h

/-- Box of the C6 refutation for an odd block size of 7: the exact residuals
of the claim (against 7 / 2) are inside the band and its l1 residual is
under the stored one, but the code residual against int(7 / 2) = 3 is 3.2
on the x axis, so the code keeps the candidate. -/
def box67 : AwsBox := { left := 31/35, top := 1/2, width := 0, height := 0 }

/-- Stored recognized candidate of the C6 refutation. -/
def lblA : FaceLabel := { name := "A", confidence := 9/10, l1_dist := 5, grid_x := 0, grid_y := 0 }

theorem C6_counterexample :
    (|qmod (recCenterX 1 7 box67) 7 - (7 : ℚ) / 2| < (7 : ℚ) / 2) ∧
    (|qmod (recCenterY 1 7 1 box67) 7 - (7 : ℚ) / 2| < (7 : ℚ) / 2) ∧
    (|qmod (recCenterX 1 7 box67) 7 - (7 : ℚ) / 2|
        + |qmod (recCenterY 1 7 1 box67) 7 - (7 : ℚ) / 2| < lblA.l1_dist) ∧
    (0 ≤ cellIdx 1 7 1 box67 ∧ cellIdx 1 7 1 box67 < (1 : ℤ)) ∧
    (lookupL [(0, lblA)] 0 = some lblA) ∧
    unrecStep 1 7 [0] [(0, lblA)] box67 = [(0, lblA)] := by
  have hcx : recCenterX 1 7 box67 = 31/5 := by
    norm_num [recCenterX, centerX, montageWidth, box67]
  have hcy : recCenterY 1 7 1 box67 = 7/2 := by
    norm_num [recCenterY, centerY, montageHeight, box67]
  have hfx : Int.floor ((31 : ℚ) / 5 / 7) = 0 := by
    norm_num [Int.floor_eq_iff]
  have hfy : Int.floor ((7 : ℚ) / 2 / 7) = 0 := by
    norm_num [Int.floor_eq_iff]
  have hqx : qmod (31/5) 7 = 31/5 := by
    rw [qmod, hfx]
    norm_num
  have hqy : qmod (7/2) 7 = 7/2 := by
    rw [qmod, hfy]
    norm_num
  have hgx : gridOf ((31 : ℚ)/5) 7 = 0 := by
    rw [gridOf]
    norm_num [hfx]
  have hgy : gridOf ((7 : ℚ)/2) 7 = 0 := by
    rw [gridOf]
    norm_num [hfy]
  have hr1 : residualOf (recCenterX 1 7 box67) 7 = 16/5 := by
    rw [residualOf, hcx]
    rw [show ((7 : ℕ) : ℚ) = 7 from by norm_num, hqx]
    rw [show ((7 / 2 : ℕ) : ℚ) = 3 from by norm_num]
    rw [abs_of_nonneg (by norm_num)]
    norm_num
  refine ⟨?_, ?_, ?_, ⟨?_, ?_⟩, rfl, ?_⟩
  · rw [hcx, hqx]
    norm_num [abs_lt]
  · rw [hcy, hqy]
    norm_num [abs_lt]
  · rw [hcx, hcy, hqx, hqy]
    norm_num [lblA, abs_lt, abs_of_nonneg]
  · rw [cellIdx, hcx, hcy, hgx, hgy]
    norm_num
  · rw [cellIdx, hcx, hcy, hgx, hgy]
    norm_num
  · simp only [unrecStep]
    rw [show box67 = box67 from rfl]
    rw [if_neg (fun hcon => absurd hcon.1 (by rw [hr1]; norm_num))]

lemma crop_gap (lo hi : ℚ) (hlo : 0 ≤ lo) (hlh : lo < hi) (hhi : hi ≤ 1) :
    1/10 < min (hi * DILATE_AMOUNT + 1/10) 1
      - max (lo * (2 - DILATE_AMOUNT) - 1/10) 0 := by
  rw [show (2 - DILATE_AMOUNT : ℚ) = 19/20 from by norm_num [DILATE_AMOUNT],
    show (DILATE_AMOUNT : ℚ) = 21/20 from by norm_num [DILATE_AMOUNT]]
  rcases le_or_lt (lo * (19/20) - 1/10) 0 with hcase | hcase
  · rw [max_eq_right hcase]
    have h1 : (1 : ℚ)/10 < hi * (21/20) + 1/10 := by nlinarith
    have h2 : (1 : ℚ)/10 < 1 := by norm_num
    have h3 := lt_min h1 h2
    linarith
  · rw [max_eq_left hcase.le]
    rcases min_cases (hi * (21/20) + 1/10) (1 : ℚ) with ⟨hmin, _⟩ | ⟨hmin, _⟩
    · rw [hmin]
      nlinarith
    · rw [hmin]
      nlinarith

lemma pyTrunc_bounds (q : ℚ) (n : ℕ) (h0 : 0 ≤ q) (h1 : q ≤ 1) :
    0 ≤ pyTrunc (q * n) ∧ pyTrunc (q * n) ≤ (n : ℤ) := by
  have hqn : 0 ≤ q * n := by positivity
  rw [pyTrunc, if_neg (not_lt.mpr hqn)]
  refine ⟨Int.floor_nonneg.mpr hqn, ?_⟩
  calc Int.floor (q * n) ≤ Int.floor ((n : ℚ)) := by
        apply Int.floor_le_floor
        nlinarith [Nat.cast_nonneg (α := ℚ) n]
    _ = (n : ℤ) := Int.floor_natCast n

lemma pyTrunc_gap (a c : ℚ) (n : ℕ) (hgap : 1/10 < c - a) (hn : 10 ≤ n)
    (ha : 0 ≤ a) : pyTrunc (a * n) < pyTrunc (c * n) := by
  have hc0 : 0 ≤ c := by linarith
  have han : 0 ≤ a * n := by positivity
  have hcn : 0 ≤ c * n := by positivity
  rw [pyTrunc, if_neg (not_lt.mpr han), pyTrunc, if_neg (not_lt.mpr hcn)]
  have hn10 : (10 : ℚ) ≤ (n : ℚ) := by exact_mod_cast hn
  have key : a * n + 1 < c * n := by nlinarith
  have h2 : ((Int.floor (a * n) : ℚ)) ≤ a * n := Int.floor_le _
  have h3 : ((Int.floor (a * n) + 1 : ℤ) : ℚ) ≤ c * n := by
    push_cast
    linarith
  have h4 := Int.le_floor.mpr h3
  omega

lemma npSliceLen_eq (n : ℕ) (i j : ℤ) (hi0 : 0 ≤ i) (hin : i ≤ (n : ℤ))
    (hj0 : 0 ≤ j) (hjn : j ≤ (n : ℤ)) :
    npSliceLen n i j = (j - i).toNat := by
  simp only [npSliceLen, npIdx]
  rw [if_neg (not_lt.mpr hj0), if_neg (not_lt.mpr hi0)]
  rw [min_eq_left (by omega), min_eq_left (by omega)]
  omega

lemma npIdx_le (n : ℕ) (i : ℤ) : npIdx n i ≤ n := by
  rw [npIdx]
  rcases lt_or_le i 0 with hi | hi
  · rw [if_pos hi]
    omega
  · rw [if_neg (not_lt.mpr hi)]
    exact min_le_right _ _

lemma npSliceLen_le (n : ℕ) (i j : ℤ) : npSliceLen n i j ≤ n := by
  rw [npSliceLen]
  calc npIdx n j - npIdx n i ≤ npIdx n j := Nat.sub_le _ _
    _ ≤ n := npIdx_le n j

/-- C9 (amended): dilating an in-bounds positive-area bounding box and then
taking the expanded square crop produces a crop with positive height and
width whenever the image is at least 10 pixels in each dimension; the
expanded crop rectangle always spans more than a tenth of each axis, so at
least one full pixel row and column survive the floor conversion. -/
theorem C9_dilate_crop_nonempty (b : BboxQ) (h w : ℕ)
    (hx1 : 0 ≤ b.x1) (hx12 : b.x1 < b.x2) (hx2 : b.x2 ≤ 1)
    (hy1 : 0 ≤ b.y1) (hy12 : b.y1 < b.y2) (hy2 : b.y2 ≤ 1)
    (hh : 10 ≤ h) (hw : 10 ≤ w) :
    0 < (crop_bbox_shape h w (dilate1 b) (1/10) true).1 ∧
    0 < (crop_bbox_shape h w (dilate1 b) (1/10) true).2 := by
  have hLX : cropLowX (dilate1 b) (1/10)
      = max (b.x1 * (2 - DILATE_AMOUNT) - 1/10) 0 := rfl
  have hHX : cropHighX (dilate1 b) (1/10)
      = min (b.x2 * DILATE_AMOUNT + 1/10) 1 := rfl
  have hLY : cropLowY (dilate1 b) (1/10)
      = max (b.y1 * (2 - DILATE_AMOUNT) - 1/10) 0 := rfl
  have hHY : cropHighY (dilate1 b) (1/10)
      = min (b.y2 * DILATE_AMOUNT + 1/10) 1 := rfl
  have hgapx : 1/10 < cropHighX (dilate1 b) (1/10) - cropLowX (dilate1 b) (1/10) := by
    rw [hLX, hHX]
    exact crop_gap b.x1 b.x2 hx1 hx12 hx2
  have hgapy : 1/10 < cropHighY (dilate1 b) (1/10) - cropLowY (dilate1 b) (1/10) := by
    rw [hLY, hHY]
    exact crop_gap b.y1 b.y2 hy1 hy12 hy2
  have hlx0 : 0 ≤ cropLowX (dilate1 b) (1/10) := le_max_right _ _
  have hly0 : 0 ≤ cropLowY (dilate1 b) (1/10) := le_max_right _ _
  have hhx1 : cropHighX (dilate1 b) (1/10) ≤ 1 := min_le_right _ _
  have hhy1 : cropHighY (dilate1 b) (1/10) ≤ 1 := min_le_right _ _
  have hlx1 : cropLowX (dilate1 b) (1/10) ≤ 1 := by
    rw [hLX]
    apply max_le _ (by norm_num)
    rw [show (2 - DILATE_AMOUNT : ℚ) = 19/20 from by norm_num [DILATE_AMOUNT]]
    nlinarith
  have hly1 : cropLowY (dilate1 b) (1/10) ≤ 1 := by
    rw [hLY]
    apply max_le _ (by norm_num)
    rw [show (2 - DILATE_AMOUNT : ℚ) = 19/20 from by norm_num [DILATE_AMOUNT]]
    nlinarith
  have hhx0 : 0 ≤ cropHighX (dilate1 b) (1/10) := by
    rw [hHX]
    apply le_min _ (by norm_num)
    rw [show (DILATE_AMOUNT : ℚ) = 21/20 from by norm_num [DILATE_AMOUNT]]
    nlinarith
  have hhy0 : 0 ≤ cropHighY (dilate1 b) (1/10) := by
    rw [hHY]
    apply le_min _ (by norm_num)
    rw [show (DILATE_AMOUNT : ℚ) = 21/20 from by norm_num [DILATE_AMOUNT]]
    nlinarith
  obtain ⟨hxl0, hxl1⟩ := pyTrunc_bounds (cropLowX (dilate1 b) (1/10)) w hlx0 hlx1
  obtain ⟨hxh0, hxh1⟩ := pyTrunc_bounds (cropHighX (dilate1 b) (1/10)) w hhx0 hhx1
  obtain ⟨hyl0, hyl1⟩ := pyTrunc_bounds (cropLowY (dilate1 b) (1/10)) h hly0 hly1
  obtain ⟨hyh0, hyh1⟩ := pyTrunc_bounds (cropHighY (dilate1 b) (1/10)) h hhy0 hhy1
  have hxlt := pyTrunc_gap (cropLowX (dilate1 b) (1/10))
    (cropHighX (dilate1 b) (1/10)) w hgapx hw hlx0
  have hylt := pyTrunc_gap (cropLowY (dilate1 b) (1/10))
    (cropHighY (dilate1 b) (1/10)) h hgapy hh hly0
  have hcols : 0 < npSliceLen w (pyTrunc (cropLowX (dilate1 b) (1/10) * w))
      (pyTrunc (cropHighX (dilate1 b) (1/10) * w)) := by
    rw [npSliceLen_eq w _ _ hxl0 hxl1 hxh0 hxh1]
    omega
  have hrows : 0 < npSliceLen h (pyTrunc (cropLowY (dilate1 b) (1/10) * h))
      (pyTrunc (cropHighY (dilate1 b) (1/10) * h)) := by
    rw [npSliceLen_eq h _ _ hyl0 hyl1 hyh0 hyh1]
    omega
  simp only [crop_bbox_shape, if_true]
  set rows := npSliceLen h (pyTrunc (cropLowY (dilate1 b) (1/10) * h))
    (pyTrunc (cropHighY (dilate1 b) (1/10) * h)) with hrowsdef
  set cols := npSliceLen w (pyTrunc (cropLowX (dilate1 b) (1/10) * w))
    (pyTrunc (cropHighX (dilate1 b) (1/10) * w)) with hcolsdef
  have hrows_le : rows ≤ h := npSliceLen_le _ _ _
  have hcols_le : cols ≤ w := npSliceLen_le _ _ _
  by_cases hcr : cols < rows
  · rw [if_pos hcr]
    constructor
    · have heq := npSliceLen_eq rows ((rows / 2 : ℕ) - (cols / 2 : ℕ))
        ((rows / 2 : ℕ) + ((cols : ℤ) - (cols / 2 : ℕ)))
        (by omega) (by omega) (by omega) (by omega)
      rw [heq]
      omega
    · exact hcols
  · rw [if_neg hcr]
    constructor
    · exact hrows
    · have heq := npSliceLen_eq cols ((cols / 2 : ℕ) - (rows / 2 : ℕ))
        ((cols / 2 : ℕ) + ((rows : ℤ) - (rows / 2 : ℕ)))
        (by omega) (by omega) (by omega) (by omega)
      rw [heq]
      omega

theorem C9_dilate_crop_nonempty_witness :
    ((0 : ℚ) ≤ 1/4 ∧ (1/4 : ℚ) < 3/4 ∧ (3/4 : ℚ) ≤ 1 ∧ (10 : ℕ) ≤ 10) ∧
    (0 < (crop_bbox_shape 10 10 (dilate1 ⟨1/4, 1/4, 3/4, 3/4⟩) (1/10) true).1 ∧
      0 < (crop_bbox_shape 10 10 (dilate1 ⟨1/4, 1/4, 3/4, 3/4⟩) (1/10) true).2) :=
  ⟨⟨by norm_num, by norm_num, by norm_num, le_refl 10⟩,
    C9_dilate_crop_nonempty ⟨1/4, 1/4, 3/4, 3/4⟩ 10 10
      (by norm_num) (by norm_num) (by norm_num)
      (by norm_num) (by norm_num) (by norm_num) (le_refl 10) (le_refl 10)⟩

theorem C9_counterexample :
    ((0 : ℚ) ≤ 0 ∧ (0 : ℚ) < 1/20 ∧ (1/20 : ℚ) ≤ 1 ∧ (0 : ℕ) < 5) ∧
    crop_bbox_shape 5 5 (dilate1 ⟨0, 0, 1/20, 1/20⟩) (1/10) true = (0, 0) := by
  refine ⟨⟨le_refl 0, by norm_num, by norm_num, by norm_num⟩, ?_⟩
  norm_num [crop_bbox_shape, cropLowY, cropHighY, cropLowX, cropHighX, dilate1,
    DILATE_AMOUNT, pyTrunc, npSliceLen, npIdx, Int.floor_eq_iff]

/-- C10: crop_bbox is total and its pixel accesses stay inside the image for
every input: every resolved slice endpoint is at most the axis length and
the resulting shape never exceeds the image dimensions; the low coordinate
of each axis is clamped below at 0 and the high coordinate above at 1 for
every input; and for any dilated in-bounds detection box and nonnegative
expand, all four normalized coordinates lie in the unit interval, so each
converted pixel index lies between 0 and the axis length. -/
theorem C10_crop_safety :
    (∀ (n : ℕ) (i : ℤ), npIdx n i ≤ n) ∧
    (∀ (h w : ℕ) (bbox : BboxQ) (expand : ℚ) (square : Bool),
      (crop_bbox_shape h w bbox expand square).1 ≤ h ∧
      (crop_bbox_shape h w bbox expand square).2 ≤ w) ∧
    (∀ (bbox : BboxQ) (expand : ℚ),
      0 ≤ cropLowX bbox expand ∧ 0 ≤ cropLowY bbox expand ∧
      cropHighX bbox expand ≤ 1 ∧ cropHighY bbox expand ≤ 1) ∧
    (∀ (b : BboxQ) (e : ℚ) (h w : ℕ),
      0 ≤ b.x1 → b.x1 ≤ 1 → 0 ≤ b.x2 → b.x2 ≤ 1 →
      0 ≤ b.y1 → b.y1 ≤ 1 → 0 ≤ b.y2 → b.y2 ≤ 1 → 0 ≤ e →
      (cropLowX (dilate1 b) e ≤ 1 ∧ cropLowY (dilate1 b) e ≤ 1 ∧
        0 ≤ cropHighX (dilate1 b) e ∧ 0 ≤ cropHighY (dilate1 b) e) ∧
      (0 ≤ pyTrunc (cropLowX (dilate1 b) e * w) ∧
        pyTrunc (cropLowX (dilate1 b) e * w) ≤ (w : ℤ) ∧
        0 ≤ pyTrunc (cropHighX (dilate1 b) e * w) ∧
        pyTrunc (cropHighX (dilate1 b) e * w) ≤ (w : ℤ) ∧
        0 ≤ pyTrunc (cropLowY (dilate1 b) e * h) ∧
        pyTrunc (cropLowY (dilate1 b) e * h) ≤ (h : ℤ) ∧
        0 ≤ pyTrunc (cropHighY (dilate1 b) e * h) ∧
        pyTrunc (cropHighY (dilate1 b) e * h) ≤ (h : ℤ))) := by
  refine ⟨npIdx_le, ?_, ?_, ?_⟩
  · intro h w bbox expand square
    simp only [crop_bbox_shape]
    cases square with
    | false =>
      exact ⟨npSliceLen_le _ _ _, npSliceLen_le _ _ _⟩
    | true =>
      simp only [if_true]
      by_cases hcr : npSliceLen w (pyTrunc (cropLowX bbox expand * w))
            (pyTrunc (cropHighX bbox expand * w))
          < npSliceLen h (pyTrunc (cropLowY bbox expand * h))
            (pyTrunc (cropHighY bbox expand * h))
      · rw [if_pos hcr]
        constructor
        · calc npSliceLen _ _ _
              ≤ npSliceLen h (pyTrunc (cropLowY bbox expand * h))
                (pyTrunc (cropHighY bbox expand * h)) := npSliceLen_le _ _ _
            _ ≤ h := npSliceLen_le _ _ _
        · exact npSliceLen_le _ _ _
      · rw [if_neg hcr]
        constructor
        · exact npSliceLen_le _ _ _
        · calc npSliceLen _ _ _
              ≤ npSliceLen w (pyTrunc (cropLowX bbox expand * w))
                (pyTrunc (cropHighX bbox expand * w)) := npSliceLen_le _ _ _
            _ ≤ w := npSliceLen_le _ _ _
  · intro bbox expand
    exact ⟨le_max_right _ _, le_max_right _ _, min_le_right _ _, min_le_right _ _⟩
  · intro b e h w hx1 hx1u hx2 hx2u hy1 hy1u hy2 hy2u he
    have hlx1 : cropLowX (dilate1 b) e ≤ 1 := by
      apply max_le _ (by norm_num)
      simp only [dilate1]
      rw [show (2 - DILATE_AMOUNT : ℚ) = 19/20 from by norm_num [DILATE_AMOUNT]]
      nlinarith
    have hly1 : cropLowY (dilate1 b) e ≤ 1 := by
      apply max_le _ (by norm_num)
      simp only [dilate1]
      rw [show (2 - DILATE_AMOUNT : ℚ) = 19/20 from by norm_num [DILATE_AMOUNT]]
      nlinarith
    have hhx0 : 0 ≤ cropHighX (dilate1 b) e := by
      apply le_min _ (by norm_num)
      simp only [dilate1]
      rw [show (DILATE_AMOUNT : ℚ) = 21/20 from by norm_num [DILATE_AMOUNT]]
      nlinarith
    have hhy0 : 0 ≤ cropHighY (dilate1 b) e := by
      apply le_min _ (by norm_num)
      simp only [dilate1]
      rw [show (DILATE_AMOUNT : ℚ) = 21/20 from by norm_num [DILATE_AMOUNT]]
      nlinarith
    refine ⟨⟨hlx1, hly1, hhx0, hhy0⟩, ?_⟩
    obtain ⟨a1, a2⟩ := pyTrunc_bounds (cropLowX (dilate1 b) e) w (le_max_right _ _) hlx1
    obtain ⟨a3, a4⟩ := pyTrunc_bounds (cropHighX (dilate1 b) e) w hhx0 (min_le_right _ _)
    obtain ⟨a5, a6⟩ := pyTrunc_bounds (cropLowY (dilate1 b) e) h (le_max_right _ _) hly1
    obtain ⟨a7, a8⟩ := pyTrunc_bounds (cropHighY (dilate1 b) e) h hhy0 (min_le_right _ _)
    exact ⟨a1, a2, a3, a4, a5, a6, a7, a8⟩

theorem C10_crop_safety_witness :
    npIdx 5 (-3) ≤ 5 ∧
    ((crop_bbox_shape 5 7 ⟨-2, 3, 5, 9⟩ (1/10) true).1 ≤ 5 ∧
      (crop_bbox_shape 5 7 ⟨-2, 3, 5, 9⟩ (1/10) true).2 ≤ 7) ∧
    ((0 : ℚ) ≤ 1/2 ∧
      (0 ≤ pyTrunc (cropLowX (dilate1 ⟨1/2, 1/2, 1, 1⟩) (1/10) * 5) ∧
        pyTrunc (cropHighX (dilate1 ⟨1/2, 1/2, 1, 1⟩) (1/10) * 5) ≤ (5 : ℤ))) := by
  refine ⟨C10_crop_safety.1 5 (-3), C10_crop_safety.2.1 5 7 ⟨-2, 3, 5, 9⟩ (1/10) true, ?_, ?_, ?_⟩
  · norm_num
  · exact ((C10_crop_safety.2.2.2 ⟨1/2, 1/2, 1, 1⟩ (1/10) 5 5
      (by norm_num) (by norm_num) (by norm_num) (by norm_num)
      (by norm_num) (by norm_num) (by norm_num) (by norm_num) (by norm_num)).2).1
  · exact ((C10_crop_safety.2.2.2 ⟨1/2, 1/2, 1, 1⟩ (1/10) 5 5
      (by norm_num) (by norm_num) (by norm_num) (by norm_num)
      (by norm_num) (by norm_num) (by norm_num) (by norm_num) (by norm_num)).2).2.2.2.1
